import Mathlib

/-!
# Verification of the gddoc2yml inline markup transpiler

A shallow embedding of `src/gddoc2yml/gdxml_helpers.py` (the tag scanner /
transpiler core) over `List Char`, together with theorems settling the
claims about its specification.

Python strings are modelled as `List Char`; `str.find` (with Python's
negative-index adjustment), slicing, `split`, `replace` and `strip` are
modelled by the `py*` helpers below.  Code that can raise (out-of-range
indexing, missing dict key) returns `Except PyErr`.  Unbounded `while`
loops over a mutating string take an explicit fuel argument and report
exhaustion as `PyErr.outOfFuel`; bounded loops are structural.

Diagnostics: the source prints coloured messages to stdout and bumps
`state.num_errors` / `state.num_warnings`.  We model each `print_error` /
`print_warning` call site by appending a `DiagKind` tag to a diagnostics
log carried in the run state (message text is not modelled) and bumping
the same counters.
-/

/-- Python strings are modelled as lists of characters. -/
abbrev Str := List Char

/-- Coerce a Lean string literal to the `List Char` model. -/
def S (s : String) : Str := s.data

/-- Python exceptions (and fuel exhaustion of the embedding). -/
inductive PyErr where
  | indexError
  | keyError
  | valueError
  | outOfFuel
deriving DecidableEq, Repr

deriving instance DecidableEq for Except

/-- Python index adjustment for `str.find` bounds: negative indices count
from the end, results are clamped to `[0, n]`. -/
def pyAdjIdx (i : Int) (n : Nat) : Nat :=
  if i < 0 then (max (n + i) 0).toNat else (min i (n : Int)).toNat

/-- Scanning core of `str.find`: starting at `k`, look for `needle` ending
no later than `e`; gas bounds the scan (callers pass enough). -/
def pyFindGo (hay needle : Str) (e : Nat) (k : Nat) : Nat → Int
  | 0 => -1
  | gas + 1 =>
    if k + needle.length ≤ e then
      if needle.isPrefixOf (hay.drop k) then (k : Int)
      else pyFindGo hay needle e (k + 1) gas
    else -1

/-- Python `hay.find(needle, start, end)`; `end_ = none` means no bound
(as in `hay.find(needle, start)`).  Returns `-1` when not found. -/
def pyFind (hay needle : Str) (start : Int) (end_ : Option Int) : Int :=
  let n := hay.length
  let s := pyAdjIdx start n
  let e := match end_ with
    | none => n
    | some j => pyAdjIdx j n
  pyFindGo hay needle e s (e + 1 - s)

/-- Python slice `l[a:b]` with index adjustment. -/
def pySlice (l : Str) (a b : Int) : Str :=
  (l.take (pyAdjIdx b l.length)).drop (pyAdjIdx a l.length)

/-- Python slice `l[a:]`. -/
def pySliceFrom (l : Str) (a : Int) : Str := l.drop (pyAdjIdx a l.length)

/-- Python `l.split(c)` on a single-character separator (note
`"".split(" ") == [""]`). -/
def pySplitChar (l : Str) (c : Char) : List Str :=
  match l with
  | [] => [[]]
  | x :: xs =>
    match pySplitChar xs c with
    | [] => [[]]
    | a :: rest => if x = c then [] :: a :: rest else (x :: a) :: rest

/-- Scanning core of `str.replace`; the fuel is the remaining length. -/
def pyReplaceGo (pat rep : Str) : Nat → Str → Str
  | 0, l => l
  | _ + 1, [] => []
  | n + 1, c :: rest =>
    if pat.isPrefixOf (c :: rest) then
      rep ++ pyReplaceGo pat rep n ((c :: rest).drop pat.length)
    else c :: pyReplaceGo pat rep n rest

/-- Python `l.replace(pat, rep)` (all occurrences, left to right). -/
def pyReplace (l pat rep : Str) : Str :=
  if pat = [] then l else pyReplaceGo pat rep l.length l

/-- Characters removed by Python `str.strip()`. -/
def pyIsSpace (c : Char) : Bool :=
  c = ' ' ∨ c = '\t' ∨ c = '\n' ∨ c = '\r' ∨ c = '\x0b' ∨ c = '\x0c'

/-- Python `l.strip()`. -/
def pyStrip (l : Str) : Str :=
  ((l.dropWhile pyIsSpace).reverse.dropWhile pyIsSpace).reverse

/-- Prefix of `l` before the first occurrence of `c`
(Python `l.split(c, 1)[0]`). -/
def pyTakeBeforeChar (l : Str) (c : Char) : Str := l.takeWhile (· ≠ c)

example : pyFind (S "abcabc") (S "bc") 0 none = 1 := by decide
example : pyFind (S "abcabc") (S "bc") 2 none = 4 := by decide
example : pyFind (S "ab*") (S "*") 0 (some (-1)) = -1 := by decide
example : pyFind (S "a*b") (S "*") 0 (some (-1)) = 1 := by decide
example : pyFind (S "abc") (S "d") 0 none = -1 := by decide
example : pySlice (S "abcdef") 2 4 = S "cd" := by decide
example : pySplitChar (S "") ' ' = [S ""] := by decide
example : pySplitChar (S "a b") ' ' = [S "a", S "b"] := by decide
example : pySplitChar (S "A.FOO") '.' = [S "A", S "FOO"] := by decide
example : pyReplace (S "operator @") (S "operator ") (S "") = S "@" := by decide
example : pyStrip (S "  a b  ") = S "a b" := by decide

/-! ## Data model

`State`, `ClassDef`, `EnumDef`, `TagState`, the definition contexts and the
reserved-tag constants live in `make_rst.py`, which is not part of the
given sources (only its importers are); they are modelled from the spec
(§3 data model, §6 tag grammar). -/

/-- Diagnostic tags, one per `print_error` / `print_warning` call-site
family of the source (message text is not modelled).  Following the
spec's §7 taxonomy: `malformedBlockTag`, `codeNoClosing` and
`urlNoClosing` are its `MalformedTag`; `unresolvedRef` covers every
"Unresolved ... reference" error; `depthMismatch` is the end-of-scan
check; `parityHit` is a `script_language_parity_check.add_hit` record. -/
inductive DiagKind where
  | malformedBlockTag
  | badIndent
  | codeNoClosing
  | urlNoClosing
  | misformattedUrl
  | emptyCrossRef
  | badReference
  | unresolvedRef
  | notBitfield
  | contextMisuse
  | sampleOutsideCodeblocks
  | unrecognizedClosingTag
  | unrecognizedOpeningTag
  | unsupportedOperator
  | depthMismatch
  | codeStringWarning
  | parityHit
deriving DecidableEq, Repr

/-- Modelled from the spec: an enum of a class holds value names and a
bitfield flag (the numeric values are never read by the transpiler). -/
structure EnumDef where
  values : List Str
  is_bitfield : Bool
deriving DecidableEq, Repr

/-- Modelled from the spec: a class definition as the transpiler reads it —
member collections keyed by name.  Only key membership is consulted by the
scanner, so collections are kept as name lists. -/
structure ClassDef where
  name : Str
  constants : List Str
  methods : List Str
  constructors : List Str
  operators : List Str
  properties : List Str
  signals : List Str
  annots : List Str
  theme_items : List Str
  enums : List (Str × EnumDef)
deriving DecidableEq, Repr

/-- Modelled from the spec: the run state (`State` in the source):
symbol table, current class and the two running counters; `diags` is the
embedding's log of emitted diagnostics. -/
structure RunState where
  classes : List (Str × ClassDef)
  current_class : Str
  num_errors : Nat
  num_warnings : Nat
  diags : List DiagKind
deriving DecidableEq, Repr

/-- Modelled from the spec: the current member context
(`DefinitionBase` and its subclasses).  `isinstance(context, (MethodDef,
SignalDef, AnnotationDef))` tests dispatch on the constructor; only
parameter names are read. -/
inductive DefContext where
  | other
  | method (parameters : List Str)
  | signal (parameters : List Str)
  | annot (parameters : List Str)
deriving DecidableEq, Repr

/-- Modelled from the spec: `TagState(raw, name, arguments, closing)`. -/
structure TagState where
  raw : Str
  name : Str
  arguments : Str
  closing : Bool
deriving DecidableEq, Repr

/-- Dict lookup `state.classes[k]` / `k in state.classes`. -/
def dlookup (m : List (Str × ClassDef)) (k : Str) : Option ClassDef :=
  match m with
  | [] => none
  | (k', v) :: rest => if k' = k then some v else dlookup rest k

/-- `print_error`: record the diagnostic and bump the error counter. -/
def print_error (k : DiagKind) (st : RunState) : RunState :=
  { st with num_errors := st.num_errors + 1, diags := st.diags ++ [k] }

/-- `print_warning`: record the diagnostic and bump the warning counter. -/
def print_warning (k : DiagKind) (st : RunState) : RunState :=
  { st with num_warnings := st.num_warnings + 1, diags := st.diags ++ [k] }

/-- Modelled from the spec: `state.script_language_parity_check.add_hit`
records a (non-fatal) parity hit without touching either counter. -/
def add_parity_hit (st : RunState) : RunState :=
  { st with diags := st.diags ++ [DiagKind.parityHit] }

/-- The operator display-name table (`operator_lookup`). -/
def operator_lookup : List (Str × Str) :=
  [ (S "!=", S "neq"), (S "==", S "eq"), (S "<", S "lt"), (S "<=", S "lte"),
    (S ">", S "gt"), (S ">=", S "gte"), (S "+", S "sum"), (S "-", S "dif"),
    (S "*", S "mul"), (S "/", S "div"), (S "%", S "mod"), (S "**", S "pow"),
    (S "unary+", S "unplus"), (S "unary-", S "unminus"), (S "<<", S "bwsl"),
    (S ">>", S "bwsr"), (S "&", S "bwand"), (S "|", S "bwor"),
    (S "^", S "bwxor"), (S "~", S "bwnot"), (S "[]", S "idx") ]

/-- Association-list lookup for `operator_lookup`. -/
def alookup (m : List (Str × Str)) (k : Str) : Option Str :=
  match m with
  | [] => none
  | (k', v) :: rest => if k' = k then some v else alookup rest k

/-- `sanitize_operator_name`: strip `"operator "`, map through
`operator_lookup`; unknown symbols report an error and return `"xxx"`. -/
def sanitize_operator_name (dirty_name : Str) (st : RunState) : Str × RunState :=
  let clear_name := pyReplace dirty_name (S "operator ") (S "")
  match alookup operator_lookup clear_name with
  | some v => (v, st)
  | none => (S "xxx", print_error .unsupportedOperator st)

/-- Modelled from the spec: the reserved verbatim-block tags — the generic
code block and one tag per supported sample language (the multi-sample
container `codeblocks` is dispatched by name before this set is consulted). -/
def RESERVED_CODEBLOCK_TAGS : List Str := [S "codeblock", S "gdscript", S "csharp"]

/-- Modelled from the spec: the reserved cross-reference tags (§6). -/
def RESERVED_CROSSLINK_TAGS : List Str :=
  [S "method", S "constructor", S "operator", S "member", S "signal",
   S "constant", S "enum", S "annotation", S "theme_item", S "param"]

/-- Modelled from the spec: characters before link markup that need no
escape. -/
def MARKUP_ALLOWED_PRECEDENT : Str := S " \t-:/'\"<([\x7b"

/-- Modelled from the spec: characters after link markup that need no
escape. -/
def MARKUP_ALLOWED_SUBSEQUENT : Str := S " \t-.,:;!?\\/'\")]\x7d>"

/-- `is_in_tagset`: exact match, or tag followed by arguments after a
space or `=`. -/
def is_in_tagset (tag_text : Str) (tagset : List Str) : Bool :=
  tagset.any fun tag =>
    tag_text = tag ∨ (tag ++ [' ']).isPrefixOf tag_text ∨ (tag ++ ['=']).isPrefixOf tag_text

/-- `get_tag_and_args`: split the bracket contents at the first space or
`=`; a leading `/` marks a closing tag. -/
def get_tag_and_args (tag_text : Str) : TagState :=
  let space_pos := pyFind tag_text [' '] 0 none
  let delim_pos : Int := if space_pos ≥ 0 then space_pos else -1
  let assign_pos := pyFind tag_text ['='] 0 none
  let delim_pos : Int :=
    if assign_pos ≥ 0 ∧ (delim_pos < 0 ∨ assign_pos < delim_pos) then assign_pos else delim_pos
  let tag_name := if delim_pos ≥ 0 then tag_text.take delim_pos.toNat else tag_text
  let arguments := if delim_pos ≥ 0 then pyStrip (tag_text.drop (delim_pos.toNat + 1)) else []
  if ['/'].isPrefixOf tag_name then
    { raw := tag_text, name := tag_name.drop 1, arguments := arguments, closing := true }
  else
    { raw := tag_text, name := tag_name, arguments := arguments, closing := false }

/-- `parse_link_target`: `Class.Name` splits on every `.`; a bare name
defaults to the current class. -/
def parse_link_target (link_target : Str) (st : RunState) : List Str :=
  if pyFind link_target (S ".") 0 none ≠ -1 then pySplitChar link_target '.'
  else [st.current_class, link_target]

example : get_tag_and_args (S "constant FOO") =
    { raw := S "constant FOO", name := S "constant", arguments := S "FOO", closing := false } := by
  decide
example : get_tag_and_args (S "/code") =
    { raw := S "/code", name := S "code", arguments := S "", closing := true } := by decide
example : get_tag_and_args (S "url=http://x") =
    { raw := S "url=http://x", name := S "url", arguments := S "http://x", closing := false } := by
  decide
example : is_in_tagset (S "code skip-lint") [S "code"] = true := by decide

/-! ## Escaping subsystem (`escape_rst`) -/

/-- One unconditional escaping pass of `escape_rst` (its `\` and `*`
loops, and the `*` loop of the scan-loop trailing-text pass): repeatedly
`text.find(c, pos, until_pos)` and replace the found character by `\c`,
resuming two characters later.  `until_pos` is re-interpreted against the
current length on every `find`, as in the source. -/
def escUncondGo (c : Char) (until_pos : Int) : Nat → Str → Nat → Except PyErr Str
  | 0, _, _ => .error .outOfFuel
  | fuel + 1, text, pos =>
    let k := pyFind text [c] pos (some until_pos)
    if k < 0 then .ok text
    else escUncondGo c until_pos fuel
      (text.take k.toNat ++ '\\' :: c :: text.drop (k.toNat + 1)) (k.toNat + 2)

/-- The word-boundary `_` escaping pass of `escape_rst` (and of the
scan-loop trailing-text pass): an underscore is escaped only when the
character right after it is not alphanumeric; reading that character can
raise `IndexError`. -/
def escUnderscoreGo (until_pos : Int) : Nat → Str → Nat → Except PyErr Str
  | 0, _, _ => .error .outOfFuel
  | fuel + 1, text, pos =>
    let k := pyFind text ['_'] pos (some until_pos)
    if k < 0 then .ok text
    else
      match text.get? (k.toNat + 1) with
      | none => .error .indexError
      | some d =>
        if ¬ d.isAlphanum then
          escUnderscoreGo until_pos fuel
            (text.take k.toNat ++ '\\' :: '_' :: text.drop (k.toNat + 1)) (k.toNat + 2)
        else escUnderscoreGo until_pos fuel text (k.toNat + 1)

/-- `escape_rst(text, until_pos)`: escape `\`, then `*`, then
word-boundary `_`, each up to `until_pos` (`-1` is the source's default).
Each pass advances its position by at least one per step, so a fuel of
`length + 2` per pass never runs out. -/
def escape_rst (text : Str) (until_pos : Int) : Except PyErr Str := do
  let t1 ← escUncondGo '\\' until_pos (text.length + 2) text 0
  let t2 ← escUncondGo '*' until_pos (t1.length + 2) t1 0
  escUnderscoreGo until_pos (t2.length + 2) t2 0

example : escape_rst (S "a*b") (-1) = .ok (S "a\\*b") := by decide
example : escape_rst (S "*") (-1) = .ok (S "*") := by decide
example : escape_rst (S "a_ b_c") (-1) = .ok (S "a\\_ b_c") := by decide
example : escape_rst (S "x\\y") (-1) = .ok (S "x\\\\y") := by decide

/-! ## Link, enum and type tokens -/

def GODOT_DOC_URL : Str := S "https://docs.godotengine.org/en/stable/"

/-- Modelled from the spec: `GODOT_DOCS_PATTERN` recognises internal docs
references `$DOCS_URL/<page>.html[#fragment]`, yielding the page group and
the optional fragment group (greedy page group, as a regex `(.*)` would). -/
def godotDocsMatch (url : Str) : Option (Str × Option Str) :=
  if (S "$DOCS_URL/").isPrefixOf url then
    let rest := url.drop 10
    let candidates := (List.range (rest.length + 1)).filter fun k =>
      (S ".html").isPrefixOf (rest.drop k) ∧
        ((rest.drop (k + 5)) = [] ∨ (rest.drop (k + 5)).head? = some '#')
    match candidates.getLast? with
    | none => none
    | some k =>
      let frag := rest.drop (k + 5)
      some (rest.take k, if frag = [] then none else some frag)
  else none

/-- `make_link`: internal docs references become docs-site links (with the
source's literal `None` rendering when the fragment group is absent and no
title is given); other urls become plain markdown links. -/
def make_link (url title : Str) : Str :=
  match godotDocsMatch url with
  | some (g0, some g1) =>
    if title ≠ [] then S "[" ++ title ++ S "](" ++ GODOT_DOC_URL ++ S "/" ++ g0 ++ S ".html" ++ g1 ++ S ")"
    else GODOT_DOC_URL ++ S "/" ++ g0 ++ S ".html" ++ g1
  | some (g0, none) =>
    if title ≠ [] then S "[" ++ title ++ S "](" ++ GODOT_DOC_URL ++ S "/" ++ g0 ++ S ".html)"
    else GODOT_DOC_URL ++ S "/" ++ g0 ++ S ".html" ++ S "None"
  | none =>
    if title ≠ [] then S "[" ++ title ++ S "](" ++ url ++ S ")" else url

/-- Enum-dict lookup (`e in class.enums` / `class.enums[e]`). -/
def elookup (m : List (Str × EnumDef)) (k : Str) : Option EnumDef :=
  match m with
  | [] => none
  | (k', v) :: rest => if k' = k then some v else elookup rest k

/-- `make_enum`: resolve an enum reference to an xref token, with the
GlobalScope fallback for bare names, the `Variant.` special case, and the
`Vector3.Axis` allow-list entry. -/
def make_enum (t : Str) (is_bitfield : Bool) (st : RunState) : Str × RunState :=
  let p := pyFind t (S ".") 0 none
  let ce : Str × Str :=
    if p ≥ 0 then
      let c := t.take p.toNat
      let e := t.drop (p.toNat + 1)
      if c = S "Variant" then (S "@GlobalScope", S "Variant." ++ e) else (c, e)
    else
      let c := st.current_class
      match dlookup st.classes c with
      | some cd => if elookup cd.enums t = none then (S "@GlobalScope", t) else (c, t)
      | none => (c, t)
  let c := ce.1
  let e := ce.2
  match (dlookup st.classes c).bind fun cd => elookup cd.enums e with
  | some ed =>
    if is_bitfield then
      let st := if ¬ ed.is_bitfield then print_error .notBitfield st else st
      (S "<xref href=\"" ++ c ++ S "." ++ e ++ S "\"></xref>", st)
    else (S "<xref href=\"" ++ e ++ S "\"></xref>", st)
  | none =>
    let st := if c ++ S "." ++ e ≠ S "Vector3.Axis" then print_error .unresolvedRef st else st
    (t, st)

/-- `make_type`: pointer types stay literal; known classes (optionally
array-suffixed) become xref tokens; unknown types report an error and stay
monospace. -/
def make_type (klass : Str) (st : RunState) : Str × RunState :=
  if pyFind klass (S "*") 0 none ≠ -1 then (S "``" ++ klass ++ S "``", st)
  else
    let is_array := (S "[]").isSuffixOf klass
    let link_type := if is_array then klass.take (klass.length - 2) else klass
    if (dlookup st.classes link_type).isSome then
      if is_array then
        (S "<xref href=\"" ++ link_type ++ S "\" data-throw-if-not-resolved=\"false\">" ++
          link_type ++ S "[]</xref>", st)
      else
        (S "<xref href=\"" ++ link_type ++ S "\" data-throw-if-not-resolved=\"false\"></xref>", st)
    else if klass = S "void" then (S "void", st)
    else
      let st := print_error .unresolvedRef st
      if is_array then (S "``" ++ link_type ++ S "[]``", st)
      else (S "``" ++ link_type ++ S "``", st)

/-! ## Verbatim blocks (`format_codeblock`) -/

/-- The indentation-fixing loop of `format_codeblock` (lines 277-298):
walk the newlines of the block body, flag over-indented lines, truncate a
trailing-whitespace line and re-indent the rest with four spaces. -/
def codeblockFix (indent_level : Nat) : Nat → Str → Int → RunState → Except PyErr (Str × RunState)
  | 0, _, _, _ => .error .outOfFuel
  | fuel + 1, code_text, code_pos, st =>
    let k := pyFind code_text (S "\n") code_pos none
    if k < 0 then .ok (code_text, st)
    else
      let cp := k.toNat
      let to_skip := ((code_text.drop (cp + 1)).takeWhile (· = '\t')).length
      let st := if to_skip > indent_level then print_error .badIndent st else st
      if (code_text.drop (cp + to_skip + 1)).length = 0 then
        codeblockFix indent_level fuel (code_text.take cp ++ ['\n']) ((cp : Int) + 1) st
      else
        codeblockFix indent_level fuel
          (code_text.take cp ++ S "\n    " ++ code_text.drop (cp + to_skip + 1))
          ((cp : Int) + 5 - (to_skip : Int)) st

/-- `format_codeblock`: locate the matching closing tag (no match reports
the fatal missing-closing-tag error and yields `none`), fix indentation,
and return the fenced block plus the scan-position offset. -/
def format_codeblock (fuel : Nat) (tag_state : TagState) (post_text : Str) (indent_level : Nat)
    (st : RunState) : Except PyErr (Option (Str × Nat) × RunState) := do
  let end_pos := pyFind post_text (S "[/" ++ tag_state.name ++ S "]") 0 none
  if end_pos < 0 then
    .ok (none, print_error .malformedBlockTag st)
  else
    let opening_formatted := tag_state.name ++
      (if tag_state.arguments.length > 0 then ' ' :: tag_state.arguments else [])
    let code_text := pySlice post_text ((opening_formatted.length : Int) + 2) end_pos
    let post_text := pySliceFrom post_text end_pos
    let (code_text, st) ← codeblockFix indent_level fuel code_text 0 st
    let code_text := pyReplace code_text (S "\n    ") (S "\n")
    let lang_name := if tag_state.name = S "codeblock" then S "gdscript" else tag_state.name
    .ok (some (S "\n[" ++ opening_formatted ++ S "]```" ++ lang_name ++ code_text ++ S "```" ++ post_text,
               (S "\n[" ++ opening_formatted ++ S "]" ++ code_text).length), st)

/-! ## The tag scan loop (`format_text_block`, lines 371-964)

The loop body (lines 442-933) is factored into `processTag`, which
returns what the iteration does: substitute a replacement for the bracket
range (possibly with adjusted surrounding text, as `[br]` and the
code-exit branch do), jump (the `[url]` branch's `continue`), or halt the
loop (the two `break`s).  The trailing-text escaping (lines 935-953) and
the reassembly (lines 955-956) live in `scanLoop`. -/

/-- Scanner-local state of `format_text_block`'s tag loop. -/
structure ScanVars where
  inside_code : Bool
  inside_code_tag : Str
  inside_code_tabs : Bool
  ignore_code_warnings : Bool
  has_codeblocks_gdscript : Bool
  has_codeblocks_csharp : Bool
  tag_depth : Int
deriving DecidableEq, Repr

/-- Initial scanner state (lines 418-428). -/
def initScanVars : ScanVars :=
  { inside_code := false, inside_code_tag := [], inside_code_tabs := false,
    ignore_code_warnings := false, has_codeblocks_gdscript := false,
    has_codeblocks_csharp := false, tag_depth := 0 }

/-- Outcome of one iteration of the tag loop. -/
inductive StepRes where
  | subst (pre_text tag_text post_text : Str) (v : ScanVars) (st : RunState)
  | jump (text : Str) (pos : Nat) (st : RunState)
  | halt (v : ScanVars) (st : RunState)
deriving DecidableEq, Repr

/-- Bare class-name tags (lines 443-448): strong emphasis for the current
class, an xref token otherwise. -/
def classRefTag (tag_text : Str) (st : RunState) : Str × RunState :=
  if tag_text = st.current_class then (S "**" ++ tag_text ++ S "**", st)
  else make_type tag_text st

/-- First stage of the inline-code lookahead check (lines 572-578): warn
when the code string names a known class. -/
def codeLintClassWarn (ict : Str) (st : RunState) : RunState :=
  if (dlookup st.classes ict).isSome then print_warning .codeStringWarning st else st

/-- Second stage of the inline-code lookahead check (lines 580-666): warn
when the code string names a member of a reachable class (methods first,
then constructors, operators, properties, signals, annotations, theme
items, constants, and finally enum values). -/
def codeLintMemberWarn (ict : Str) (st : RunState) : RunState :=
  match parse_link_target ict st with
  | target_class_name :: target_name :: rest =>
    if rest = [] then
      match dlookup st.classes target_class_name with
      | some class_def =>
        if class_def.methods.contains target_name then print_warning .codeStringWarning st
        else if class_def.constructors.contains target_name then print_warning .codeStringWarning st
        else if class_def.operators.contains target_name then print_warning .codeStringWarning st
        else if class_def.properties.contains target_name then print_warning .codeStringWarning st
        else if class_def.signals.contains target_name then print_warning .codeStringWarning st
        else if class_def.annots.contains target_name then print_warning .codeStringWarning st
        else if class_def.theme_items.contains target_name then print_warning .codeStringWarning st
        else if class_def.constants.contains target_name then print_warning .codeStringWarning st
        else if class_def.enums.any (fun e => e.2.values.contains target_name) then
          print_warning .codeStringWarning st
        else st
      | none => st
    else st
  | _ => st

/-- Third stage of the inline-code lookahead check (lines 668-679): warn
when the code string names a parameter of the current context. -/
def codeLintParamWarn (ctx : DefContext) (ict : Str) (st : RunState) : RunState :=
  match ctx with
  | .method ps | .signal ps | .annot ps =>
    if ps.contains ict then print_warning .codeStringWarning st else st
  | .other => st

/-- The inline-code lookahead symbol-collision check (lines 567-679):
strip a trailing `()`, then run the three advisory stages in order; only
warnings are emitted. -/
def codeLintWarnings (ctx : DefContext) (inside_code_text : Str) (st : RunState) : RunState :=
  let ict := if (S "()").isSuffixOf inside_code_text then
    inside_code_text.take (inside_code_text.length - 2) else inside_code_text
  codeLintParamWarn ctx ict (codeLintMemberWarn ict (codeLintClassWarn ict st))

/-- The search loop of the `constant` cross-reference branch
(lines 776-786): walk the searched class definitions, rebinding the
owning class on every hit (constants before enum values within a class;
no break between classes). -/
def constantSearch : List ClassDef → Str → Str → Bool → Str × Bool
  | [], _, target_class_name, found => (target_class_name, found)
  | d :: rest, target_name, target_class_name, found =>
    if d.constants.contains target_name then constantSearch rest target_name d.name true
    else if d.enums.any (fun e => e.2.values.contains target_name) then
      constantSearch rest target_name d.name true
    else constantSearch rest target_name target_class_name found

/-- The member-kind cross-reference handler (lines 702-802): method,
constructor, operator, member, signal, annotation, theme_item and
constant tags.  Always substitutes an xref token; resolution failures
only report errors.  Looking up `@GlobalScope` for a bare constant
reference raises `KeyError` when that class is absent. -/
def crosslinkMember (ts : TagState) (link_target : Str) (st : RunState) :
    Except PyErr (Str × RunState) := do
  match parse_link_target link_target st with
  | target_class_name :: target_name :: rest =>
    let st := if rest.length > 0 then print_error .badReference st else st
    match dlookup st.classes target_class_name with
    | some class_def =>
      if ts.name = S "constant" then
        let search_class_defs ←
          if pyFind link_target (S ".") 0 none = -1 then
            match dlookup st.classes (S "@GlobalScope") with
            | some g => pure [class_def, g]
            | none => throw PyErr.keyError
          else pure [class_def]
        let fs := constantSearch search_class_defs target_name target_class_name false
        let st := if ¬ fs.2 then print_error .unresolvedRef st else st
        .ok (S "<xref href=\"" ++ fs.1 ++ S "." ++ target_name ++ S "\"></xref>", st)
      else
        let unresolved : Bool :=
          if ts.name = S "method" then ¬ class_def.methods.contains target_name
          else if ts.name = S "constructor" then ¬ class_def.constructors.contains target_name
          else if ts.name = S "operator" then ¬ class_def.operators.contains target_name
          else if ts.name = S "member" then ¬ class_def.properties.contains target_name
          else if ts.name = S "signal" then ¬ class_def.signals.contains target_name
          else if ts.name = S "annotation" then ¬ class_def.annots.contains target_name
          else if ts.name = S "theme_item" then ¬ class_def.theme_items.contains target_name
          else false
        let st := if unresolved then print_error .unresolvedRef st else st
        .ok (S "<xref href=\"" ++ target_class_name ++ S "." ++ target_name ++ S "\"></xref>", st)
    | none =>
      let st := print_error .unresolvedRef st
      .ok (S "<xref href=\"" ++ target_class_name ++ S "." ++ target_name ++ S "\"></xref>", st)
  | _ => throw PyErr.valueError

/-- The `[br]` space stripping (lines 871-873): `while post_text[0] == " "`
indexes position 0 unconditionally, so empty (or all-space) trailing text
raises `IndexError`. -/
def stripLeadingSpaces : Str → Except PyErr Str
  | [] => .error .indexError
  | c :: rest => if c = ' ' then stripLeadingSpaces rest else .ok (c :: rest)

/-- Tags met inside a code region (lines 455-484): only the matching
closing tag exits code mode (stripping a newline the tag was alone on,
which indexes `pre_text[-1]` and raises on empty text); everything else
stays literal, a closing-looking tag drawing an advisory warning. -/
def handleInsideCode (ts : TagState) (pre_text post_text tag_text : Str) (v : ScanVars)
    (st : RunState) : Except PyErr StepRes :=
  if ts.closing ∧ ts.name = v.inside_code_tag then
    if is_in_tagset ts.name RESERVED_CODEBLOCK_TAGS then
      match pre_text.getLast? with
      | none => throw PyErr.indexError
      | some c =>
        let pre' := if c = '\n' then pre_text.dropLast else pre_text
        .ok (.subst pre' [] post_text
          { v with tag_depth := v.tag_depth - 1, inside_code := false,
                   ignore_code_warnings := false } st)
    else if is_in_tagset ts.name [S "code"] then
      .ok (.subst pre_text (S "``") post_text
        { v with tag_depth := v.tag_depth - 1, inside_code := false,
                 ignore_code_warnings := false } st)
    else .ok (.subst pre_text tag_text post_text v st)
  else
    let st := if ¬ v.ignore_code_warnings ∧ ts.closing then
      print_warning .codeStringWarning st else st
    .ok (.subst pre_text (S "[" ++ tag_text ++ S "]") post_text v st)

/-- The `codeblocks` container tag (lines 488-507). -/
def handleCodeblocks (ts : TagState) (pre_text post_text : Str) (v : ScanVars)
    (st : RunState) : Except PyErr StepRes :=
  if ts.closing then
    let st := if ¬ v.has_codeblocks_gdscript ∨ ¬ v.has_codeblocks_csharp then
      add_parity_hit st else st
    .ok (.subst pre_text (S "---") post_text
      { v with has_codeblocks_gdscript := false, has_codeblocks_csharp := false,
               tag_depth := v.tag_depth - 1, inside_code_tabs := false } st)
  else
    .ok (.subst pre_text [] post_text
      { v with tag_depth := v.tag_depth + 1, inside_code_tabs := true } st)

/-- Entering a reserved verbatim-block tag from the scan loop
(lines 509-547): depth, per-language sample bookkeeping (language tags
outside a `codeblocks` container are errors), parity hit for a bare
`codeblock`, then code mode. -/
def handleCodeblockTag (ts : TagState) (pre_text post_text : Str) (v : ScanVars)
    (st : RunState) : Except PyErr StepRes :=
  let skip := (pySplitChar ts.arguments ' ').contains (S "skip-lint")
  if ts.name = S "gdscript" then
    let st := if ¬ v.inside_code_tabs then print_error .sampleOutsideCodeblocks st else st
    .ok (.subst pre_text (S "\n# [gdscript](#tab/gdscript)\n") post_text
      { v with tag_depth := v.tag_depth + 1,
               has_codeblocks_gdscript := v.inside_code_tabs || v.has_codeblocks_gdscript,
               inside_code := true, inside_code_tag := ts.name,
               ignore_code_warnings := skip } st)
  else if ts.name = S "csharp" then
    let st := if ¬ v.inside_code_tabs then print_error .sampleOutsideCodeblocks st else st
    .ok (.subst pre_text (S "\n# [C#](#tab/csharp)\n") post_text
      { v with tag_depth := v.tag_depth + 1,
               has_codeblocks_csharp := v.inside_code_tabs || v.has_codeblocks_csharp,
               inside_code := true, inside_code_tag := ts.name,
               ignore_code_warnings := skip } st)
  else
    let st := add_parity_hit st
    let tagOut := if (pySplitChar ts.arguments ' ').contains (S "lang=text") then
      S "\n# [text](#tab/text)\n" else []
    .ok (.subst pre_text tagOut post_text
      { v with tag_depth := v.tag_depth + 1, inside_code := true,
               inside_code_tag := ts.name, ignore_code_warnings := skip } st)

/-- Entering inline code (lines 549-679): emit the delimiter, enter code
mode, and — unless lint is skipped — run the lookahead; a missing
`[/code]` reports an error and breaks the scan loop. -/
def handleCodeEntry (ctx : DefContext) (text : Str) (endq : Nat) (ts : TagState)
    (pre_text post_text : Str) (v : ScanVars) (st : RunState) : Except PyErr StepRes :=
  let v' := { v with tag_depth := v.tag_depth + 1, inside_code := true,
                     inside_code_tag := S "code",
                     ignore_code_warnings := (pySplitChar ts.arguments ' ').contains (S "skip-lint") }
  if ¬ v'.ignore_code_warnings then
    let endcode_pos := pyFind text (S "[/code]") ((endq : Int) + 1) none
    if endcode_pos < 0 then
      .ok (.halt v' (print_error .codeNoClosing st))
    else
      let inside_code_text := pySlice text ((endq : Int) + 1) endcode_pos
      .ok (.subst pre_text (S "``") post_text v' (codeLintWarnings ctx inside_code_text st))
  else .ok (.subst pre_text (S "``") post_text v' st)

/-- The cross-reference family (lines 682-830): empty targets error and
vanish; member kinds go through `crosslinkMember`; `enum` through
`make_enum`; `param` validates against the context's parameters. -/
def handleCrosslink (ctx : DefContext) (ts : TagState) (pre_text post_text tag_text : Str)
    (v : ScanVars) (st : RunState) : Except PyErr StepRes := do
  let link_target := ts.arguments
  if link_target = [] then
    .ok (.subst pre_text [] post_text v (print_error .emptyCrossRef st))
  else if ts.name = S "method" ∨ ts.name = S "constructor" ∨ ts.name = S "operator" ∨
          ts.name = S "member" ∨ ts.name = S "signal" ∨ ts.name = S "annotation" ∨
          ts.name = S "theme_item" ∨ ts.name = S "constant" then
    let r ← crosslinkMember ts link_target st
    .ok (.subst pre_text r.1 post_text v r.2)
  else if ts.name = S "enum" then
    let r := make_enum link_target false st
    .ok (.subst pre_text r.1 post_text v r.2)
  else if ts.name = S "param" then
    match ctx with
    | .method ps | .signal ps | .annot ps =>
      let st := if ¬ ps.contains link_target then print_error .unresolvedRef st else st
      .ok (.subst pre_text (S "``" ++ link_target ++ S "``") post_text v st)
    | .other =>
      .ok (.subst pre_text (S "``" ++ link_target ++ S "``") post_text v
        (print_error .contextMisuse st))
  else .ok (.subst pre_text tag_text post_text v st)

/-- The `[url]` tag (lines 834-866): resolved in full here, including the
closing-tag sub-scan (missing `[/url]` breaks the loop), link-title
extraction and boundary-aware escaping; ends with `continue`. -/
def handleUrl (ts : TagState) (text : Str) (pos1 endq : Nat) (pre_text post_text tag_text : Str)
    (v : ScanVars) (st : RunState) : Except PyErr StepRes :=
  let url_target := ts.arguments
  if url_target = [] then
    .ok (.subst pre_text tag_text post_text v (print_error .misformattedUrl st))
  else
    let endurl_pos := pyFind text (S "[/url]") ((endq : Int) + 1) none
    if endurl_pos < 0 then .ok (.halt v (print_error .urlNoClosing st))
    else
      let link_title := pySlice text ((endq : Int) + 1) endurl_pos
      let tagOut := make_link url_target link_title
      let pre2 := text.take pos1
      let post2 := pySliceFrom text (endurl_pos + 6)
      let pre3 := match pre2.getLast? with
        | some c => if ¬ MARKUP_ALLOWED_PRECEDENT.contains c then pre2 ++ S "\\ " else pre2
        | none => pre2
      let post3 := match post2.head? with
        | some c => if ¬ MARKUP_ALLOWED_SUBSEQUENT.contains c then S "\\ " ++ post2 else post2
        | none => post2
      .ok (.jump (pre3 ++ tagOut ++ post3) (pre3.length + tagOut.length) st)

/-- The simple formatting tags and the invalid-tag fallback
(lines 868-933). -/
def handleSimpleTag (ts : TagState) (pre_text post_text tag_text : Str) (v : ScanVars)
    (st : RunState) : Except PyErr StepRes := do
  if ts.name = S "br" then
    let post' ← stripLeadingSpaces post_text
    .ok (.subst pre_text (S "\n\n") post' v st)
  else if ts.name = S "center" then
    .ok (.subst pre_text [] post_text
      { v with tag_depth := v.tag_depth + (if ts.closing then -1 else 1) } st)
  else if ts.name = S "i" then
    .ok (.subst pre_text (S "*") post_text
      { v with tag_depth := v.tag_depth + (if ts.closing then -1 else 1) } st)
  else if ts.name = S "b" then
    .ok (.subst pre_text (S "**") post_text
      { v with tag_depth := v.tag_depth + (if ts.closing then -1 else 1) } st)
  else if ts.name = S "u" then
    .ok (.subst pre_text [] post_text
      { v with tag_depth := v.tag_depth + (if ts.closing then -1 else 1) } st)
  else if ts.name = S "lb" then .ok (.subst pre_text (S "[") post_text v st)
  else if ts.name = S "rb" then .ok (.subst pre_text (S "]") post_text v st)
  else if ts.name = S "kbd" then
    if ts.closing then
      .ok (.subst pre_text (S "`</kbd>") post_text { v with tag_depth := v.tag_depth - 1 } st)
    else
      .ok (.subst pre_text (S "<kbd>`") post_text { v with tag_depth := v.tag_depth + 1 } st)
  else if ts.closing then
    .ok (.subst pre_text (S "[" ++ tag_text ++ S "]") post_text v
      (print_error .unrecognizedClosingTag st))
  else
    .ok (.subst pre_text (S "``" ++ tag_text ++ S "``") post_text v
      (print_error .unrecognizedOpeningTag st))

/-- One iteration of the tag loop (lines 442-933), dispatching to the
family handlers above. -/
def processTag (ctx : DefContext) (text : Str) (pos1 endq : Nat)
    (pre_text post_text tag_text : Str) (v : ScanVars) (st : RunState) :
    Except PyErr StepRes :=
  if (dlookup st.classes tag_text).isSome ∧ ¬ v.inside_code then
    let r := classRefTag tag_text st
    .ok (.subst pre_text r.1 post_text v r.2)
  else
    let ts := get_tag_and_args tag_text
    if v.inside_code then handleInsideCode ts pre_text post_text tag_text v st
    else if ts.name = S "codeblocks" then handleCodeblocks ts pre_text post_text v st
    else if is_in_tagset ts.name RESERVED_CODEBLOCK_TAGS then
      handleCodeblockTag ts pre_text post_text v st
    else if is_in_tagset ts.name [S "code"] then
      handleCodeEntry ctx text endq ts pre_text post_text v st
    else if is_in_tagset ts.name RESERVED_CROSSLINK_TAGS then
      handleCrosslink ctx ts pre_text post_text tag_text v st
    else if is_in_tagset ts.name [S "url"] then
      handleUrl ts text pos1 endq pre_text post_text tag_text v st
    else handleSimpleTag ts pre_text post_text tag_text v st

/-- The tag scan loop (lines 429-956), returning the transpiled text and
the final nesting depth. -/
def scanLoop (ctx : DefContext) : Nat → Str → Nat → ScanVars → RunState →
    Except PyErr (Str × Int × RunState)
  | 0, _, _, _, _ => .error .outOfFuel
  | fuel + 1, text, pos, v, st => do
    let posI := pyFind text (S "[") (pos : Int) none
    if posI < 0 then .ok (text, v.tag_depth, st)
    else
      let pos1 := posI.toNat
      let endqI := pyFind text (S "]") ((pos1 : Int) + 1) none
      if endqI < 0 then .ok (text, v.tag_depth, st)
      else
        let endq := endqI.toNat
        let pre_text := text.take pos1
        let post_text := text.drop (endq + 1)
        let tag_text := pySlice text ((pos1 : Int) + 1) endq
        match ← processTag ctx text pos1 endq pre_text post_text tag_text v st with
        | .halt v' st' => .ok (text, v'.tag_depth, st')
        | .jump text' pos' st' => scanLoop ctx fuel text' pos' v st'
        | .subst pre tagOut post v' st' =>
          let next_brac_pos := pyFind post (S "[") 0 none
          let post ← if v'.inside_code then pure post
            else escUncondGo '*' next_brac_pos (post.length + 2) post 0
          let post ← if v'.inside_code then pure post
            else escUnderscoreGo next_brac_pos (post.length + 2) post 0
          scanLoop ctx fuel (pre ++ tagOut ++ post) (pre.length + tagOut.length) v' st'

/-- The line-break normalization pre-pass (lines 377-410): paragraph
breaks for ordinary newlines; the block sub-scan for reserved verbatim
block tags opening right after a line break, whose failure (`none`)
aborts the whole call. -/
def prepassLoop (fuel0 : Nat) : Nat → Str → Nat → RunState →
    Except PyErr (Option Str × RunState)
  | 0, _, _, _ => .error .outOfFuel
  | fuel + 1, text, pos, st =>
    let k := pyFind text (S "\n") (pos : Int) none
    if k < 0 then .ok (some text, st)
    else
      let pos0 := k.toNat
      let pre_text := text.take pos0
      let indent_level := ((text.drop (pos0 + 1)).takeWhile (· = '\t')).length
      let pos1 := pos0 + indent_level
      let post_text := text.drop (pos1 + 1)
      if (S "[codeblock]").isPrefixOf post_text ∨ (S "[codeblock ").isPrefixOf post_text ∨
         (S "[gdscript]").isPrefixOf post_text ∨ (S "[gdscript ").isPrefixOf post_text ∨
         (S "[csharp]").isPrefixOf post_text ∨ (S "[csharp ").isPrefixOf post_text then
        let tag_text := pyTakeBeforeChar (post_text.drop 1) ']'
        let tag_state := get_tag_and_args tag_text
        match format_codeblock fuel0 tag_state post_text indent_level st with
        | .error e => .error e
        | .ok (none, st') => .ok (none, st')
        | .ok (some r, st') => prepassLoop fuel0 fuel (pre_text ++ r.1) (pos1 + r.2 - indent_level) st'
      else prepassLoop fuel0 fuel (pre_text ++ S "\n\n" ++ post_text) (pos1 + 2 - indent_level) st

/-- Result of `formatTextBlockCore`: transpiled text, final nesting depth
(0 when the scan loop was never reached) and final run state. -/
structure CoreOut where
  text : Str
  depth : Int
  st : RunState
deriving DecidableEq, Repr

/-- `format_text_block` with the final nesting depth exposed: pre-pass,
escaping pre-pass bounded by the first `[`, tag scan loop, and the
end-of-scan depth check (lines 958-962), which fires only for a positive
final depth. -/
def formatTextBlockCore (fuel : Nat) (text : Str) (ctx : DefContext) (st : RunState) :
    Except PyErr CoreOut := do
  let (o, st1) ← prepassLoop fuel fuel text 0 st
  match o with
  | none => .ok ⟨[], 0, st1⟩
  | some text =>
    let next_brac_pos := pyFind text (S "[") 0 none
    let text ← escape_rst text next_brac_pos
    let (text, depth, st2) ← scanLoop ctx fuel text 0 initScanVars st1
    let st3 := if depth > 0 then print_error .depthMismatch st2 else st2
    .ok ⟨text, depth, st3⟩

/-- `format_text_block(text, context, state)`: the transpiler entry point. -/
def format_text_block (fuel : Nat) (text : Str) (ctx : DefContext) (st : RunState) :
    Except PyErr (Str × RunState) :=
  (formatTextBlockCore fuel text ctx st).map fun o => (o.text, o.st)

/-! ## Concrete symbol tables used by the claim theorems -/

/-- A class definition with no members. -/
def emptyClassDef (n : Str) : ClassDef := ⟨n, [], [], [], [], [], [], [], [], []⟩

/-- One empty class `A`, which is the current class; fresh counters. -/
def stBase : RunState := ⟨[(S "A", emptyClassDef (S "A"))], S "A", 0, 0, []⟩

/-- Class `A` with a method `foo`; current class `A`. -/
def stFooMethod : RunState :=
  ⟨[(S "A", { emptyClassDef (S "A") with methods := [S "foo"] })], S "A", 0, 0, []⟩

/-- Class `A` without constants, `@GlobalScope` with constant `FOO`;
current class `A`. -/
def stGlobalFoo : RunState :=
  ⟨[(S "A", emptyClassDef (S "A")),
    (S "@GlobalScope", { emptyClassDef (S "@GlobalScope") with constants := [S "FOO"] })],
   S "A", 0, 0, []⟩

/-- Both class `A` and `@GlobalScope` own a constant `FOO`; current
class `A`. -/
def stBothFoo : RunState :=
  ⟨[(S "A", { emptyClassDef (S "A") with constants := [S "FOO"] }),
    (S "@GlobalScope", { emptyClassDef (S "@GlobalScope") with constants := [S "FOO"] })],
   S "A", 0, 0, []⟩

/-- Classes `A` (current) and `Node`. -/
def stNode : RunState :=
  ⟨[(S "A", emptyClassDef (S "A")), (S "Node", emptyClassDef (S "Node"))], S "A", 0, 0, []⟩

/-- A name is found in a class during constant resolution iff it is one of
its constants or one of its enum values. -/
def inClassDef (cd : ClassDef) (t : Str) : Bool :=
  cd.constants.contains t || cd.enums.any (fun e => e.2.values.contains t)

/-! ## Claim theorems -/

instance : Nonempty (Str × EnumDef) := ⟨([], ⟨[], false⟩)⟩

/-- An xref token is never the empty string. -/
lemma S_xref_ne_nil (x : Str) : S "<xref href=\"" ++ x ≠ [] := by
  intro hx
  exact absurd (List.append_eq_nil.mp hx).1 (by decide)

/-- Base case of the constant-resolution search loop. -/
lemma constantSearch_nil (t tc : Str) (found : Bool) :
    constantSearch [] t tc found = (tc, found) := rfl

/-- Step of the constant-resolution search loop: a hit in the head class
(constants, else enum values) rebinds the owner to that class and marks
the search found, in either case continuing with the remaining classes. -/
lemma constantSearch_cons (d : ClassDef) (rest : List ClassDef) (t tc : Str) (found : Bool) :
    constantSearch (d :: rest) t tc found =
      if inClassDef d t then constantSearch rest t d.name true
      else constantSearch rest t tc found := by
  rw [constantSearch.eq_def]
  dsimp only
  unfold inClassDef
  cases h1 : d.constants.contains t <;>
    cases h2 : (d.enums.any fun e => e.2.values.contains t) <;>
    simp [h1, h2]

/-- **C1** (amended).  A `[constant NAME]` reference searches the target
class's constants, then its enum values, and — only when no class was
explicitly named in the argument — also `@GlobalScope`'s constants and
enum values.  The search loop has no break between classes, so a hit in
`@GlobalScope` *overrides* an earlier hit in the target class: when the
name exists in both, the bare reference resolves to `@GlobalScope` (last
match wins between the searched classes; within one class a constant hit
short-circuits the enum scan, the owner being that class either way).
For class `A` with no constant `FOO` while `@GlobalScope` has constant
`FOO`, a bare `[constant FOO]` in a description owned by `A` resolves to
`@GlobalScope` with zero errors, and an explicitly qualified
`[constant A.FOO]` emits exactly one unresolved-reference error. -/
theorem c1_constant_resolution :
    (∀ (a g : ClassDef) (t init : Str),
        constantSearch [a, g] t init false =
          (if inClassDef g t then g.name else if inClassDef a t then a.name else init,
           inClassDef a t || inClassDef g t)) ∧
    (∀ (a : ClassDef) (t init : Str),
        constantSearch [a] t init false =
          (if inClassDef a t then a.name else init, inClassDef a t)) ∧
    format_text_block 40 (S "[constant FOO]") .other stGlobalFoo =
      .ok (S "<xref href=\"@GlobalScope.FOO\"></xref>", stGlobalFoo) ∧
    format_text_block 40 (S "[constant A.FOO]") .other stGlobalFoo =
      .ok (S "<xref href=\"A.FOO\"></xref>",
        { stGlobalFoo with num_errors := 1, diags := [DiagKind.unresolvedRef] }) := by
  refine ⟨?_, ?_, by decide, by decide⟩
  · intro a g t init
    simp only [constantSearch_cons, constantSearch_nil]
    cases hA : inClassDef a t <;> cases hG : inClassDef g t <;> simp [hA, hG]
  · intro a t init
    simp only [constantSearch_cons, constantSearch_nil]
    cases hA : inClassDef a t <;> simp [hA]

/-- **C1** counterexample.  With `FOO` a constant of both the named class
`A` (the current class) and of `@GlobalScope`, the bare `[constant FOO]`
resolves to `@GlobalScope`, not to the named class: "the first match
determining the resolved owning class" is false on the code. -/
theorem c1_counterexample :
    format_text_block 40 (S "[constant FOO]") .other stBothFoo =
      .ok (S "<xref href=\"@GlobalScope.FOO\"></xref>", stBothFoo) ∧
    S "<xref href=\"@GlobalScope.FOO\"></xref>" ≠ S "<xref href=\"A.FOO\"></xref>" := by
  exact ⟨by decide, by decide⟩

/-- **C4** (amended).  Every member-kind cross-reference substitution is a
(non-empty) xref token whether or not resolution succeeded, and
`[method Missing.thing]` with `Missing` absent from the symbol table
emits exactly one unresolved-reference error while the call still
returns non-empty text.  However, a cross-reference tag with an *empty*
link target substitutes the empty string, not a non-empty placeholder
(see the counterexample). -/
theorem c4_crossref_placeholder :
    (∀ (ts : TagState) (lt : Str) (st : RunState) (r : Str × RunState),
        crosslinkMember ts lt st = .ok r → r.1 ≠ []) ∧
    format_text_block 40 (S "[method Missing.thing]") .other stBase =
      .ok (S "<xref href=\"Missing.thing\"></xref>",
        { stBase with num_errors := 1, diags := [DiagKind.unresolvedRef] }) ∧
    S "<xref href=\"Missing.thing\"></xref>" ≠ [] := by
  refine ⟨?_, by decide, by decide⟩
  intro ts lt st r h
  unfold crosslinkMember at h
  rcases hp : parse_link_target lt st with _ | ⟨a, _ | ⟨b, rest⟩⟩ <;> rw [hp] at h
  · simp at h
  · simp at h
  · simp only [bind, Except.bind, pure, Except.pure] at h
    repeat' split at h
    all_goals first
      | (cases h; exact S_xref_ne_nil _)
      | simp at h

/-- **C4** witness: the general part of `c4_crossref_placeholder` applied
to the concrete `[method Missing.thing]` resolution. -/
theorem c4_crossref_placeholder_witness :
    crosslinkMember ⟨S "method Missing.thing", S "method", S "Missing.thing", false⟩
        (S "Missing.thing") stBase =
      .ok (S "<xref href=\"Missing.thing\"></xref>",
        { stBase with num_errors := 1, diags := [DiagKind.unresolvedRef] }) ∧
    (S "<xref href=\"Missing.thing\"></xref>",
        { stBase with num_errors := 1, diags := [DiagKind.unresolvedRef] }).1 ≠ ([] : Str) :=
  ⟨by decide,
   c4_crossref_placeholder.1
     ⟨S "method Missing.thing", S "method", S "Missing.thing", false⟩
     (S "Missing.thing") stBase
     (S "<xref href=\"Missing.thing\"></xref>",
       { stBase with num_errors := 1, diags := [DiagKind.unresolvedRef] })
     (by decide)⟩

/-- **C4** counterexample.  `[method]` (an empty link target) is a failed
resolution whose substituted output token is the empty string: the claim
that every failed resolution "still substitutes some non-empty
placeholder output token in place of the tag" fails here — the whole
returned text is empty. -/
theorem c4_counterexample :
    format_text_block 40 (S "[method]") .other stBase =
      .ok (([] : Str), { stBase with num_errors := 1, diags := [DiagKind.emptyCrossRef] }) := by
  decide

/-- **C5** (amended).  For every operator name whose stripped symbol has
no entry in `operator_lookup`, `sanitize_operator_name` reports an
unsupported-operator diagnostic (bumping the error counter) and returns
the fixed placeholder `"xxx"` — not the literal operator name. -/
theorem c5_unsupported_operator (dirty : Str) (st : RunState)
    (h : alookup operator_lookup (pyReplace dirty (S "operator ") (S "")) = none) :
    sanitize_operator_name dirty st =
      (S "xxx", { st with num_errors := st.num_errors + 1,
                          diags := st.diags ++ [DiagKind.unsupportedOperator] }) := by
  unfold sanitize_operator_name
  simp only [h]
  rfl

/-- **C5** witness: `operator @` has no display mapping; the theorem
applies to it. -/
theorem c5_unsupported_operator_witness :
    alookup operator_lookup (pyReplace (S "operator @") (S "operator ") (S "")) = none ∧
    sanitize_operator_name (S "operator @") stBase =
      (S "xxx", { stBase with num_errors := stBase.num_errors + 1,
                              diags := stBase.diags ++ [DiagKind.unsupportedOperator] }) :=
  ⟨by decide, c5_unsupported_operator (S "operator @") stBase (by decide)⟩

/-- **C5** counterexample.  The fallback return value for the unmapped
`operator @` is the placeholder `"xxx"`, which is neither the literal
dirty name `"operator @"` nor its stripped form `"@"`: "uses the literal
operator name as the fallback return value" is false on the code. -/
theorem c5_counterexample :
    (sanitize_operator_name (S "operator @") stBase).1 = S "xxx" ∧
    S "xxx" ≠ S "operator @" ∧ S "xxx" ≠ S "@" := by
  exact ⟨by decide, by decide, by decide⟩

/-- **C6** (confirmed).  `[code]foo[/code]` with `foo` matching no known
symbol yields inline-code-wrapped `foo` and zero diagnostics; the same
call where `foo` is a method of the current class yields exactly one
advisory warning and the very same output text — the lookahead
symbol-collision check never alters the output. -/
theorem c6_inline_code_lint :
    format_text_block 40 (S "[code]foo[/code]") .other stBase = .ok (S "``foo``", stBase) ∧
    format_text_block 40 (S "[code]foo[/code]") .other stFooMethod =
      .ok (S "``foo``",
        { stFooMethod with num_warnings := 1, diags := [DiagKind.codeStringWarning] }) := by
  exact ⟨by decide, by decide⟩

/-- **C7** (confirmed).  A bracketed tag whose text is exactly a known
class name, met outside any code region, is substituted by
`classRefTag`: a strong-emphasis token when it names the current class
(never a self-link), an xref token otherwise; and `"See [Node] for
details."` with `Node` known and not current yields the xref token for
`Node` followed immediately by the literal `" for details."`. -/
theorem c7_class_reference :
    (∀ (ctx : DefContext) (text : Str) (pos1 endq : Nat) (pre post tagTxt : Str)
        (v : ScanVars) (st : RunState),
        (dlookup st.classes tagTxt).isSome = true → v.inside_code = false →
        processTag ctx text pos1 endq pre post tagTxt v st =
          .ok (.subst pre (classRefTag tagTxt st).1 post v (classRefTag tagTxt st).2)) ∧
    (∀ (tagTxt : Str) (st : RunState), tagTxt = st.current_class →
        (classRefTag tagTxt st).1 = S "**" ++ tagTxt ++ S "**") ∧
    format_text_block 40 (S "See [Node] for details.") .other stNode =
      .ok (S "See <xref href=\"Node\" data-throw-if-not-resolved=\"false\"></xref> for details.",
           stNode) := by
  refine ⟨?_, ?_, by decide⟩
  · intro ctx text pos1 endq pre post tagTxt v st h1 h2
    unfold processTag
    simp [h1, h2]
  · intro tagTxt st h
    unfold classRefTag
    simp [h]

/-- **C7** witness: the step lemma applied to the `[Node]` tag in
`stNode`'s context, and the self-emphasis clause applied to the current
class `A`. -/
theorem c7_class_reference_witness :
    processTag .other (S "See [Node] for details.") 4 9 (S "See ") (S " for details.")
        (S "Node") initScanVars stNode =
      .ok (.subst (S "See ") (classRefTag (S "Node") stNode).1 (S " for details.")
        initScanVars (classRefTag (S "Node") stNode).2) ∧
    (classRefTag (S "A") stNode).1 = S "**" ++ S "A" ++ S "**" :=
  ⟨c7_class_reference.1 .other (S "See [Node] for details.") 4 9 (S "See ")
      (S " for details.") (S "Node") initScanVars stNode (by decide) (by decide),
   c7_class_reference.2.1 (S "A") stNode (by decide)⟩

/-- **C9** (confirmed).  The `[br]` handler's space-stripping loop
(`while post_text[0] == " "`) indexes position 0 without checking
non-emptiness, so it raises `IndexError` whenever the text after the tag
is empty (or all spaces); in particular an input ending in `[br]`
outside any code region makes `format_text_block` raise an uncaught
`IndexError` instead of returning transpiled output. -/
theorem c9_br_index_error :
    (∀ l : Str, l.all (· = ' ') = true → stripLeadingSpaces l = .error .indexError) ∧
    format_text_block 10 (S "x[br]") .other stBase = .error .indexError := by
  refine ⟨?_, by decide⟩
  intro l h
  induction l with
  | nil => rfl
  | cons c rest ih =>
    simp only [List.all_cons, Bool.and_eq_true, decide_eq_true_eq] at h
    unfold stripLeadingSpaces
    simp [h.1, ih h.2]

/-- **C9** witness: the stripping loop raises on the empty trailing text
(the "input ends with `[br]`" case). -/
theorem c9_br_index_error_witness :
    (([] : Str).all (· = ' ') = true) ∧ stripLeadingSpaces [] = .error .indexError :=
  ⟨by decide, c9_br_index_error.1 [] (by decide)⟩

/-- **C10** (confirmed).  When a reserved verbatim-block tag is opened in
the tag-scan loop (not after a line break) and its matching closing tag
follows with no emitted text before it, exiting code mode reads the last
character of the empty preceding text (`pre_text[-1]`) and raises
`IndexError`; in particular `"[codeblock][/codeblock]"` at the very
start of the text makes `format_text_block` raise an uncaught
`IndexError`. -/
theorem c10_codeblock_index_error :
    (∀ (post : Str) (v : ScanVars) (st : RunState),
        v.inside_code = true → v.inside_code_tag = S "codeblock" →
        processTag .other (S "[/codeblock]") 0 11 [] post (S "/codeblock") v st =
          .error .indexError) ∧
    format_text_block 10 (S "[codeblock][/codeblock]") .other stBase =
      .error .indexError := by
  refine ⟨?_, by decide⟩
  intro post v st h1 h2
  have e : get_tag_and_args (S "/codeblock") =
      ⟨S "/codeblock", S "codeblock", [], true⟩ := by decide
  unfold processTag handleInsideCode
  rw [e]
  simp [h1, h2, show is_in_tagset (S "codeblock") RESERVED_CODEBLOCK_TAGS = true from by decide]
  rfl

/-- **C10** witness: the processTag step raises on the concrete second
iteration of the `"[codeblock][/codeblock]"` scan. -/
theorem c10_codeblock_index_error_witness :
    processTag .other (S "[/codeblock]") 0 11 [] []
        (S "/codeblock")
        { initScanVars with inside_code := true, inside_code_tag := S "codeblock",
                            tag_depth := 1 } stBase =
      .error .indexError :=
  c10_codeblock_index_error.1 []
    { initScanVars with inside_code := true, inside_code_tag := S "codeblock", tag_depth := 1 }
    stBase (by decide) (by decide)

/-- `str.find` scanning: the first occurrence of a character is found at
its position. -/
lemma pyFindGo_first (c : Char) :
    ∀ (p : Str) (rest hay : Str) (k gas e : Nat),
      hay.drop k = p ++ c :: rest → c ∉ p → k + p.length + 1 ≤ e → p.length + 1 ≤ gas →
      pyFindGo hay [c] e k gas = ((k + p.length : Nat) : Int) := by
  intro p
  induction p with
  | nil =>
    intro rest hay k gas e hd hc hke hgas
    obtain ⟨g, rfl⟩ : ∃ g, gas = g + 1 := ⟨gas - 1, by omega⟩
    unfold pyFindGo
    simp only [List.length_singleton]
    rw [if_pos (by simpa using hke), hd]
    simp [List.isPrefixOf]
  | cons d p' ih =>
    intro rest hay k gas e hd hc hke hgas
    obtain ⟨g, rfl⟩ : ∃ g, gas = g + 1 := ⟨gas - 1, by omega⟩
    have hne : c ≠ d := fun h => hc (h ▸ List.mem_cons_self d p')
    have hc' : c ∉ p' := fun h => hc (List.mem_cons_of_mem d h)
    have hbe : (c == d) = false := beq_eq_false_iff_ne.mpr hne
    unfold pyFindGo
    rw [if_pos (by simp at hke ⊢; omega), hd]
    simp only [List.isPrefixOf, hbe, Bool.false_and, Bool.false_eq_true, if_false]
    have hd' : hay.drop (k + 1) = p' ++ c :: rest := by
      have h2 := List.tail_drop hay k
      rw [hd] at h2
      simpa using h2.symm
    rw [ih rest hay (k + 1) g e hd' hc' (by simp at hke ⊢; omega) (by simp at hgas ⊢; omega)]
    simp only [List.length_cons, Nat.cast_inj]
    omega

/-- `hay.find(c)` returns the position of the first occurrence of `c`. -/
lemma pyFind_first_char (c : Char) (p rest : Str) (hc : c ∉ p) :
    pyFind (p ++ c :: rest) [c] 0 none = ((p.length : Nat) : Int) := by
  unfold pyFind
  have h0 : pyAdjIdx 0 (p ++ c :: rest).length = 0 := by simp [pyAdjIdx]
  simp only [h0]
  have h := pyFindGo_first c p rest (p ++ c :: rest) 0 ((p ++ c :: rest).length + 1 - 0)
    (p ++ c :: rest).length (by simp) hc (by simp) (by simp)
  simpa using h

/-- `takeWhile` of a not-that-character predicate stops exactly at the
first occurrence. -/
lemma takeWhile_append_stop (l r : Str) (c : Char) (hl : ∀ x ∈ l, x ≠ c) :
    (l ++ c :: r).takeWhile (fun x => x ≠ c) = l := by
  induction l with
  | nil => simp [List.takeWhile_cons]
  | cons d l' ih =>
    have hd : d ≠ c := hl d (List.mem_cons_self d l')
    have ih' := ih fun x hx => hl x (List.mem_cons_of_mem d hx)
    simp only [ne_eq, decide_not] at ih' ⊢
    simp [List.takeWhile_cons, hd, ih']

/-- **C3** (amended).  For every input whose `[codeblock]` opens right
after a line break (the block sub-scan path) with no `[/codeblock]`
anywhere after it, `format_text_block` returns empty output and emits
exactly one missing-closing-tag (`MalformedTag`) error, incrementing the
error counter by exactly 1; this block-level missing-closing-tag
condition is the one that discards the whole call's output.  (A
`[codeblock]` *not* preceded by a line break is handled by the tag-scan
loop instead and is not fatal — see the counterexample.) -/
theorem c3_unterminated_codeblock (f : Nat) (p tail : Str) (ctx : DefContext) (st : RunState)
    (hp : '\n' ∉ p)
    (hn : pyFind (S "[codeblock]" ++ tail) (S "[/codeblock]") 0 none = -1) :
    format_text_block (f + 1) (p ++ S "\n[codeblock]" ++ tail) ctx st =
      .ok ([], { st with num_errors := st.num_errors + 1,
                         diags := st.diags ++ [DiagKind.malformedBlockTag] }) := by
  have htext : p ++ S "\n[codeblock]" ++ tail = p ++ '\n' :: (S "[codeblock]" ++ tail) := by
    rw [show S "\n[codeblock]" = '\n' :: S "[codeblock]" from rfl]
    simp
  unfold format_text_block formatTextBlockCore
  rw [htext]
  simp only [prepassLoop]
  have hfind : pyFind (p ++ '\n' :: (S "[codeblock]" ++ tail)) (S "\n") ((0 : Nat) : Int) none
      = (p.length : Int) := by
    rw [show S "\n" = ['\n'] from rfl]
    simpa using pyFind_first_char '\n' p (S "[codeblock]" ++ tail) hp
  rw [hfind]
  have hneg : ¬ ((p.length : Int) < 0) := by omega
  rw [if_neg hneg]
  simp only [Int.toNat_natCast]
  have hdropp : (p ++ '\n' :: (S "[codeblock]" ++ tail)).drop (p.length + 1)
      = S "[codeblock]" ++ tail := by
    rw [show p ++ '\n' :: (S "[codeblock]" ++ tail)
        = (p ++ ['\n']) ++ (S "[codeblock]" ++ tail) from by simp]
    rw [show p.length + 1 = (p ++ ['\n']).length from by simp]
    exact List.drop_left _ _
  simp only [hdropp]
  have hindentR : (S "[codeblock]" ++ tail).takeWhile (fun x => decide (x = '\t')) = [] := by
    rw [show S "[codeblock]" ++ tail = '[' :: (S "codeblock]" ++ tail) from rfl]
    simp [List.takeWhile_cons]
  simp only [hindentR, List.length_nil, Nat.add_zero]
  simp only [hdropp]
  have hpref1 : List.isPrefixOf (S "[codeblock]") (S "[codeblock]" ++ tail) = true := by
    simp [List.isPrefixOf_iff_prefix]
  rw [if_pos (Or.inl hpref1)]
  have hdrop1 : (S "[codeblock]" ++ tail).drop 1 = S "codeblock]" ++ tail := rfl
  have htag : pyTakeBeforeChar (S "codeblock]" ++ tail) ']' = S "codeblock" := by
    unfold pyTakeBeforeChar
    rw [show S "codeblock]" ++ tail = S "codeblock" ++ (']' :: tail) from by
      rw [show S "codeblock]" = S "codeblock" ++ [']'] from rfl]; simp]
    exact takeWhile_append_stop (S "codeblock") tail ']' (by decide)
  rw [hdrop1, htag]
  rw [show get_tag_and_args (S "codeblock")
      = ⟨S "codeblock", S "codeblock", [], false⟩ from by decide]
  have hfc : format_codeblock (f + 1) ⟨S "codeblock", S "codeblock", [], false⟩
      (S "[codeblock]" ++ tail) 0 st = .ok (none, print_error .malformedBlockTag st) := by
    unfold format_codeblock
    rw [show S "[/" ++ S "codeblock" ++ S "]" = S "[/codeblock]" from by decide]
    rw [hn]
    rfl
  rw [hfc]
  rfl

/-- **C3** witness: the amended theorem applied to
`"x\n[codeblock]rest"`. -/
theorem c3_unterminated_codeblock_witness :
    ('\n' ∉ S "x") ∧
    pyFind (S "[codeblock]" ++ S "rest") (S "[/codeblock]") 0 none = -1 ∧
    format_text_block (9 + 1) (S "x" ++ S "\n[codeblock]" ++ S "rest") .other stBase =
      .ok ([], { stBase with num_errors := stBase.num_errors + 1,
                             diags := stBase.diags ++ [DiagKind.malformedBlockTag] }) :=
  ⟨by decide, by decide,
   c3_unterminated_codeblock 9 (S "x") (S "rest") .other stBase (by decide) (by decide)⟩

/-- **C3** counterexample.  `"x[codeblock]"` contains an unterminated
`[codeblock]`, yet (the tag not being preceded by a line break) the call
returns the non-empty text `"x"` and emits a depth-mismatch error — not
a `MalformedTag` error — so the claim's "for every input text containing
an unterminated [codeblock]" quantification is false. -/
theorem c3_counterexample :
    format_text_block 40 (S "x[codeblock]") .other stBase =
      .ok (S "x",
        { stBase with num_errors := 1,
                      diags := [DiagKind.parityHit, DiagKind.depthMismatch] }) ∧
    S "x" ≠ ([] : Str) ∧
    [DiagKind.parityHit, DiagKind.depthMismatch].count DiagKind.malformedBlockTag = 0 := by
  exact ⟨by decide, by decide, by decide⟩


/-- Number of depth-mismatch diagnostics recorded so far. -/
def dmCount (st : RunState) : Nat := st.diags.count DiagKind.depthMismatch

/-- The run state carried by a scan-step outcome. -/
def stepState : StepRes → RunState
  | .subst _ _ _ _ st => st
  | .jump _ _ st => st
  | .halt _ st => st

/-- Reporting any other diagnostic leaves the depth-mismatch count unchanged. -/
lemma dmCount_print_error (k : DiagKind) (st : RunState) (h : k ≠ DiagKind.depthMismatch) :
    dmCount (print_error k st) = dmCount st := by
  simp [dmCount, print_error, List.count_append, List.count_cons, List.count_nil,
    beq_iff_eq, h]

lemma dmCount_print_warning (k : DiagKind) (st : RunState) (h : k ≠ DiagKind.depthMismatch) :
    dmCount (print_warning k st) = dmCount st := by
  simp [dmCount, print_warning, List.count_append, List.count_cons, List.count_nil,
    beq_iff_eq, h]

lemma dmCount_add_parity_hit (st : RunState) :
    dmCount (add_parity_hit st) = dmCount st := by
  simp [dmCount, add_parity_hit, List.count_append, List.count_cons, List.count_nil]

lemma dmCount_make_type (k : Str) (st : RunState) :
    dmCount (make_type k st).2 = dmCount st := by
  unfold make_type
  dsimp only
  repeat' split
  all_goals first | rfl | simp [dmCount_print_error]

set_option maxRecDepth 8000 in
set_option maxHeartbeats 2000000 in
lemma dmCount_make_enum (t : Str) (b : Bool) (st : RunState) :
    dmCount (make_enum t b st).2 = dmCount st := by
  unfold make_enum
  dsimp only
  repeat' split
  all_goals first | rfl | simp [dmCount_print_error]

lemma dmCount_classRefTag (t : Str) (st : RunState) :
    dmCount (classRefTag t st).2 = dmCount st := by
  unfold classRefTag
  split
  · rfl
  · exact dmCount_make_type t st

lemma dmCount_codeLintClassWarn (ict : Str) (st : RunState) :
    dmCount (codeLintClassWarn ict st) = dmCount st := by
  unfold codeLintClassWarn
  split <;> simp [dmCount_print_warning]

lemma dmCount_codeLintMemberWarn (ict : Str) (st : RunState) :
    dmCount (codeLintMemberWarn ict st) = dmCount st := by
  unfold codeLintMemberWarn
  repeat' split
  all_goals first | rfl | simp [dmCount_print_warning]

lemma dmCount_codeLintParamWarn (ctx : DefContext) (ict : Str) (st : RunState) :
    dmCount (codeLintParamWarn ctx ict st) = dmCount st := by
  unfold codeLintParamWarn
  repeat' split
  all_goals first | rfl | simp [dmCount_print_warning]

lemma dmCount_codeLintWarnings (ctx : DefContext) (ict : Str) (st : RunState) :
    dmCount (codeLintWarnings ctx ict st) = dmCount st := by
  unfold codeLintWarnings
  rw [dmCount_codeLintParamWarn, dmCount_codeLintMemberWarn, dmCount_codeLintClassWarn]

lemma dmCount_crosslinkMember (ts : TagState) (lt : Str) (st : RunState) (r : Str × RunState)
    (h : crosslinkMember ts lt st = .ok r) : dmCount r.2 = dmCount st := by
  unfold crosslinkMember at h
  rcases hp : parse_link_target lt st with _ | ⟨a, _ | ⟨b, rest⟩⟩ <;> rw [hp] at h
  · simp at h
  · simp at h
  · simp only [bind, Except.bind, pure, Except.pure] at h
    repeat' split at h
    all_goals first
      | (cases h
         repeat' split
         all_goals simp [dmCount_print_error])
      | simp at h

lemma dmCount_handleInsideCode (ts : TagState) (pre post tagTxt : Str) (v : ScanVars)
    (st : RunState) (r : StepRes) (h : handleInsideCode ts pre post tagTxt v st = .ok r) :
    dmCount (stepState r) = dmCount st := by
  unfold handleInsideCode at h
  repeat' split at h
  all_goals first
    | (cases h; dsimp only [stepState]; repeat' split
       all_goals simp [dmCount_print_warning])
    | simp at h

lemma dmCount_handleCodeblocks (ts : TagState) (pre post : Str) (v : ScanVars)
    (st : RunState) (r : StepRes) (h : handleCodeblocks ts pre post v st = .ok r) :
    dmCount (stepState r) = dmCount st := by
  unfold handleCodeblocks at h
  repeat' split at h
  all_goals first
    | (cases h; dsimp only [stepState]; repeat' split
       all_goals simp [dmCount_add_parity_hit])
    | simp at h

lemma dmCount_handleCodeblockTag (ts : TagState) (pre post : Str) (v : ScanVars)
    (st : RunState) (r : StepRes) (h : handleCodeblockTag ts pre post v st = .ok r) :
    dmCount (stepState r) = dmCount st := by
  unfold handleCodeblockTag at h
  repeat' split at h
  all_goals first
    | (cases h; dsimp only [stepState]; repeat' split
       all_goals simp [dmCount_print_error, dmCount_add_parity_hit])
    | simp at h

lemma dmCount_handleCodeEntry (ctx : DefContext) (text : Str) (endq : Nat) (ts : TagState)
    (pre post : Str) (v : ScanVars) (st : RunState) (r : StepRes)
    (h : handleCodeEntry ctx text endq ts pre post v st = .ok r) :
    dmCount (stepState r) = dmCount st := by
  unfold handleCodeEntry at h
  dsimp only at h
  split at h
  all_goals try split at h
  all_goals
    cases h
    simp [stepState, dmCount_print_error, dmCount_codeLintWarnings]

lemma dmCount_handleCrosslink (ctx : DefContext) (ts : TagState) (pre post tagTxt : Str)
    (v : ScanVars) (st : RunState) (r : StepRes)
    (h : handleCrosslink ctx ts pre post tagTxt v st = .ok r) :
    dmCount (stepState r) = dmCount st := by
  unfold handleCrosslink at h
  simp only [bind, Except.bind, pure, Except.pure] at h
  repeat' split at h
  all_goals first
    | (cases h; dsimp only [stepState]; repeat' split
       all_goals simp [dmCount_print_error, dmCount_make_enum])
    | simp at h
  all_goals
    rename_i heq
    cases h
    dsimp only [stepState]
    exact dmCount_crosslinkMember _ _ _ _ heq

lemma dmCount_handleUrl (ts : TagState) (text : Str) (pos1 endq : Nat)
    (pre post tagTxt : Str) (v : ScanVars) (st : RunState) (r : StepRes)
    (h : handleUrl ts text pos1 endq pre post tagTxt v st = .ok r) :
    dmCount (stepState r) = dmCount st := by
  unfold handleUrl at h
  dsimp only at h
  by_cases h1 : ts.arguments = []
  · rw [if_pos h1] at h
    cases h; simp [stepState, dmCount_print_error]
  · rw [if_neg h1] at h
    by_cases h2 : pyFind text (S "[/url]") ((endq : Int) + 1) none < 0
    · rw [if_pos h2] at h
      cases h; simp [stepState, dmCount_print_error]
    · rw [if_neg h2] at h
      cases h; simp [stepState]

lemma dmCount_handleSimpleTag (ts : TagState) (pre post tagTxt : Str) (v : ScanVars)
    (st : RunState) (r : StepRes) (h : handleSimpleTag ts pre post tagTxt v st = .ok r) :
    dmCount (stepState r) = dmCount st := by
  unfold handleSimpleTag at h
  simp only [bind, Except.bind, pure, Except.pure] at h
  repeat' split at h
  all_goals first
    | (cases h; dsimp only [stepState]; repeat' split
       all_goals simp [dmCount_print_error])
    | simp at h

/-- No branch of the tag loop body emits a depth-mismatch diagnostic. -/
lemma dmCount_processTag (ctx : DefContext) (text : Str) (pos1 endq : Nat)
    (pre post tagTxt : Str) (v : ScanVars) (st : RunState) (r : StepRes)
    (h : processTag ctx text pos1 endq pre post tagTxt v st = .ok r) :
    dmCount (stepState r) = dmCount st := by
  unfold processTag at h
  dsimp only at h
  repeat' split at h
  all_goals first
    | (cases h; dsimp only [stepState]; exact dmCount_classRefTag _ _)
    | exact dmCount_handleInsideCode _ _ _ _ _ _ _ h
    | exact dmCount_handleCodeblocks _ _ _ _ _ _ h
    | exact dmCount_handleCodeblockTag _ _ _ _ _ _ h
    | exact dmCount_handleCodeEntry _ _ _ _ _ _ _ _ _ h
    | exact dmCount_handleCrosslink _ _ _ _ _ _ _ _ h
    | exact dmCount_handleUrl _ _ _ _ _ _ _ _ _ _ h
    | exact dmCount_handleSimpleTag _ _ _ _ _ _ _ h

/-- The end-of-scan check adds exactly one depth-mismatch diagnostic. -/
lemma dmCount_print_error_dm (st : RunState) :
    dmCount (print_error .depthMismatch st) = dmCount st + 1 := by
  simp [dmCount, print_error, List.count_append, List.count_cons, List.count_nil]

lemma dmCount_codeblockFix (n : Nat) :
    ∀ (fuel : Nat) (code : Str) (cp : Int) (st : RunState) (r : Str × RunState),
      codeblockFix n fuel code cp st = .ok r → dmCount r.2 = dmCount st := by
  intro fuel
  induction fuel with
  | zero => intro code cp st r h; simp [codeblockFix] at h
  | succ f ih =>
    intro code cp st r h
    unfold codeblockFix at h
    dsimp only at h
    split at h
    · cases h; rfl
    · split at h
      all_goals
        rw [ih _ _ _ _ h]
        split <;> simp [dmCount_print_error]

lemma dmCount_format_codeblock (fuel : Nat) (ts : TagState) (post : Str) (n : Nat)
    (st : RunState) (r : Option (Str × Nat) × RunState)
    (h : format_codeblock fuel ts post n st = .ok r) : dmCount r.2 = dmCount st := by
  unfold format_codeblock at h
  simp only [bind, Except.bind, pure, Except.pure] at h
  repeat' split at h
  all_goals cases h
  all_goals try simp [dmCount_print_error]
  all_goals exact dmCount_codeblockFix _ _ _ _ _ _ (by assumption)

/-- The line-break pre-pass never emits a depth-mismatch diagnostic. -/
lemma dmCount_prepassLoop (fuel0 : Nat) :
    ∀ (fuel : Nat) (text : Str) (pos : Nat) (st : RunState) (r : Option Str × RunState),
      prepassLoop fuel0 fuel text pos st = .ok r → dmCount r.2 = dmCount st := by
  intro fuel
  induction fuel with
  | zero => intro text pos st r h; simp [prepassLoop] at h
  | succ f ih =>
    intro text pos st r h
    unfold prepassLoop at h
    dsimp only at h
    split at h
    · cases h; rfl
    · split at h
      · split at h
        · simp at h
        · rename_i heq
          cases h
          exact dmCount_format_codeblock _ _ _ _ _ _ heq
        · rename_i heq
          rw [ih _ _ _ _ h]
          exact dmCount_format_codeblock _ _ _ _ _ _ heq
      · exact ih _ _ _ _ h

/-- The scan loop never emits a depth-mismatch diagnostic. -/
lemma dmCount_scanLoop (ctx : DefContext) :
    ∀ (fuel : Nat) (text : Str) (pos : Nat) (v : ScanVars) (st : RunState)
      (r : Str × Int × RunState),
      scanLoop ctx fuel text pos v st = .ok r → dmCount r.2.2 = dmCount st := by
  intro fuel
  induction fuel with
  | zero => intro text pos v st r h; simp [scanLoop] at h
  | succ f ih =>
    intro text pos v st r h
    unfold scanLoop at h
    simp only [bind, Except.bind, pure, Except.pure] at h
    split at h
    · cases h; rfl
    · split at h
      · cases h; rfl
      · split at h
        · simp at h
        · rename_i res heq
          have hstep := dmCount_processTag _ _ _ _ _ _ _ _ _ _ heq
          split at h
          all_goals repeat' split at h
          all_goals try (cases h)
          all_goals try (rw [ih _ _ _ _ _ h])
          all_goals simpa [stepState] using hstep

/-- **C2** (amended).  `format_text_block` emits the end-of-scan "tag
depth mismatch" diagnostic **iff the final nesting depth counter is
positive** (`tag_depth > 0`), and then exactly once: the depth-mismatch
count of the final diagnostics equals the initial count plus one exactly
when the final depth is positive.  A negative final counter — unmatched
closing tags — is *not* reported (see the counterexample).  In
particular, any input whose scan ends at depth 0 (as every input whose
depth-affecting tags are all matched does) yields no depth-mismatch
diagnostic. -/
theorem c2_depth_mismatch (fuel : Nat) (text : Str) (ctx : DefContext) (st : RunState)
    (out : CoreOut) (h : formatTextBlockCore fuel text ctx st = .ok out) :
    dmCount out.st = dmCount st + (if out.depth > 0 then 1 else 0) := by
  unfold formatTextBlockCore at h
  simp only [bind, Except.bind, pure, Except.pure] at h
  split at h
  · simp at h
  · rename_i p heq1
    have h1 := dmCount_prepassLoop _ _ _ _ _ _ heq1
    split at h
    · cases h
      simpa using h1
    · split at h
      · simp at h
      · split at h
        · simp at h
        · rename_i sr heq3
          have h3 := dmCount_scanLoop _ _ _ _ _ _ _ heq3
          cases h
          dsimp only
          split
          · rw [dmCount_print_error_dm, h3, h1]
            try simp
          · rw [h3, h1]
            try simp
            try omega

/-- **C2** witness: the amended theorem applied to the balanced input
`"[b]x[/b]"`, whose scan ends at depth 0 with no diagnostic. -/
theorem c2_depth_mismatch_witness :
    formatTextBlockCore 40 (S "[b]x[/b]") .other stBase = .ok ⟨S "**x**", 0, stBase⟩ ∧
    dmCount (⟨S "**x**", 0, stBase⟩ : CoreOut).st
      = dmCount stBase + (if (⟨S "**x**", 0, stBase⟩ : CoreOut).depth > 0 then 1 else 0) :=
  ⟨by decide,
   c2_depth_mismatch 40 (S "[b]x[/b]") .other stBase ⟨S "**x**", 0, stBase⟩ (by decide)⟩

/-- **C2** counterexample.  `"[/b]"` (an unmatched closing tag) drives the
final depth counter to `-1`, which is nonzero, yet no depth-mismatch
diagnostic is emitted: the check is `tag_depth > 0`, so the claim's "if
and only if the final nesting depth counter is nonzero — the single
counter covers both unmatched opening tags and unmatched closing tags"
is false. -/
theorem c2_counterexample :
    formatTextBlockCore 40 (S "[/b]") .other stBase = .ok ⟨S "**", -1, stBase⟩ ∧
    (-1 : Int) ≠ 0 ∧ dmCount stBase = 0 := by
  exact ⟨by decide, by decide, by decide⟩

/-- Spec-side characterization of one unconditional escaping pass: working
left to right over all characters except the final one, a character equal
to `c` is replaced by a backslash followed by `c`.  This definition follows
the specification's words (every occurrence escaped) restricted to the
window that the code's default bound actually covers; it is compared with
the source-translated `escUncondGo` below. -/
def escUncondSpec (c : Char) : Str → Str
  | [] => []
  | [d] => [d]
  | d :: e :: rest => (if d = c then ['\\', c] else [d]) ++ escUncondSpec c (e :: rest)

/-- Spec-side characterization of the word-boundary underscore pass: over
all characters except the final one, an underscore is escaped exactly when
the immediately following character is not alphanumeric. -/
def escUnderscoreSpec : Str → Str
  | [] => []
  | [d] => [d]
  | d :: e :: rest =>
    (if d = '_' ∧ ¬ e.isAlphanum then ['\\', '_'] else [d]) ++ escUnderscoreSpec (e :: rest)

/-- Spec-side composition of the three passes in the source's order:
backslashes, then emphasis markers, then word-boundary underscores. -/
def escape_rst_spec (l : Str) : Str :=
  escUnderscoreSpec (escUncondSpec '*' (escUncondSpec '\\' l))

/-- If a string has no occurrence of `c` before its final character, the
unconditional pass leaves it unchanged. -/
lemma escUncondSpec_no_occ (c : Char) :
    ∀ a : Str, (∀ x ∈ a.dropLast, x ≠ c) → escUncondSpec c a = a := by
  intro a
  induction a with
  | nil => intro h; rfl
  | cons d rest ih =>
    intro h
    cases rest with
    | nil => rfl
    | cons e rest' =>
      have hd : d ≠ c := h d (by simp)
      have := ih fun x hx => h x (by simp [List.dropLast] at hx ⊢; tauto)
      simp only [escUncondSpec, hd, if_false]
      simp [this]

/-- A prefix free of `c` passes through the unconditional pass untouched. -/
lemma escUncondSpec_append (c : Char) :
    ∀ (a b : Str), (∀ x ∈ a, x ≠ c) → b ≠ [] →
      escUncondSpec c (a ++ b) = a ++ escUncondSpec c b := by
  intro a
  induction a with
  | nil => intro b _ _; rfl
  | cons d a' ih =>
    intro b h hb
    have hd : d ≠ c := h d (by simp)
    have step : ∃ y ys, a' ++ b = y :: ys := by
      cases a' with
      | nil => cases b with
        | nil => exact absurd rfl hb
        | cons y ys => exact ⟨y, ys, rfl⟩
      | cons y ys => exact ⟨y, ys ++ b, rfl⟩
    obtain ⟨y, ys, hy⟩ := step
    simp only [List.cons_append, hy, escUncondSpec, hd, if_false]
    rw [← hy, ih b (fun x hx => h x (by simp [hx])) hb]
    simp

/-- A leading `c` with a nonempty tail is escaped by the unconditional pass. -/
lemma escUncondSpec_cons_hit (c : Char) (b : Str) (hb : b ≠ []) :
    escUncondSpec c (c :: b) = '\\' :: c :: escUncondSpec c b := by
  cases b with
  | nil => exact absurd rfl hb
  | cons y ys => simp [escUncondSpec]

/-- If a string has no underscore before its final character, the
underscore pass leaves it unchanged. -/
lemma escUnderscoreSpec_no_occ :
    ∀ a : Str, (∀ x ∈ a.dropLast, x ≠ '_') → escUnderscoreSpec a = a := by
  intro a
  induction a with
  | nil => intro h; rfl
  | cons d rest ih =>
    intro h
    cases rest with
    | nil => rfl
    | cons e rest' =>
      have hd : d ≠ '_' := h d (by simp)
      have := ih fun x hx => h x (by simp [List.dropLast] at hx ⊢; tauto)
      simp only [escUnderscoreSpec, hd, false_and, if_false]
      simp [this]

/-- A prefix free of underscores passes through the underscore pass
untouched. -/
lemma escUnderscoreSpec_append :
    ∀ (a b : Str), (∀ x ∈ a, x ≠ '_') → escUnderscoreSpec (a ++ b) = a ++ escUnderscoreSpec b := by
  intro a
  induction a with
  | nil => intro b _; rfl
  | cons d a' ih =>
    intro b h
    have hd : d ≠ '_' := h d (by simp)
    rcases hstep : a' ++ b with _ | ⟨y, ys⟩
    · have ha' : a' = [] := by cases a' <;> simp_all
      have hbnil : b = [] := by cases b <;> simp_all
      subst ha' hbnil
      rfl
    · simp only [List.cons_append, hstep, escUnderscoreSpec, hd, false_and, if_false]
      rw [← hstep, ih b (fun x hx => h x (by simp [hx]))]
      simp

/-- A one-character needle is a prefix exactly when it is the head. -/
lemma isPrefixOf_single (c : Char) (l : Str) :
    ([c].isPrefixOf l) = true ↔ l.head? = some c := by
  cases l with
  | nil => simp [List.isPrefixOf]
  | cons d rest =>
    simp [List.isPrefixOf]
    exact eq_comm

/-- Unfolding equation for one step of the bounded find scan. -/
lemma pyFindGo_succ_eq (hay needle : Str) (e k gas : Nat) :
    pyFindGo hay needle e k (gas + 1) =
      if k + needle.length ≤ e then
        (if needle.isPrefixOf (hay.drop k) then (k : Int) else pyFindGo hay needle e (k + 1) gas)
      else -1 := rfl

/-- Complete characterization of `pyFindGo` for a one-character needle:
either it returns `-1` and no admissible index holds the character, or it
returns the least admissible index holding it. -/
lemma pyFindGo_single (hay : Str) (c : Char) (e : Nat) :
    ∀ (gas k : Nat), e + 1 ≤ gas + k →
      (pyFindGo hay [c] e k gas = -1 ∧
        ∀ j, k ≤ j → j + 1 ≤ e → hay[j]? ≠ some c) ∨
      (∃ m : Nat, pyFindGo hay [c] e k gas = (m : Int) ∧ k ≤ m ∧ m + 1 ≤ e ∧
        hay[m]? = some c ∧ ∀ j, k ≤ j → j < m → hay[j]? ≠ some c) := by
  intro gas
  induction gas with
  | zero =>
    intro k hk
    left
    refine ⟨rfl, fun j hj hje => ?_⟩
    omega
  | succ g ih =>
    intro k hk
    have hlen : k + [c].length ≤ e ↔ k + 1 ≤ e := by simp
    by_cases hke : k + 1 ≤ e
    · by_cases hpre : ([c].isPrefixOf (hay.drop k)) = true
      · right
        refine ⟨k, ?_, le_refl k, hke, ?_, fun j hj hjk => by omega⟩
        · rw [pyFindGo_succ_eq, if_pos (hlen.mpr hke), if_pos hpre]
        · have h2 := (isPrefixOf_single c (hay.drop k)).mp hpre
          rwa [List.head?_drop] at h2
      · have hget : hay[k]? ≠ some c := by
          intro hc
          apply hpre
          rw [isPrefixOf_single, List.head?_drop]
          exact hc
        have step : pyFindGo hay [c] e k (g + 1) = pyFindGo hay [c] e (k + 1) g := by
          rw [pyFindGo_succ_eq, if_pos (hlen.mpr hke), if_neg (by simpa using hpre)]
        rcases ih (k + 1) (by omega) with ⟨hfind, hno⟩ | ⟨m, hfind, hkm, hme, hm, hno⟩
        · left
          refine ⟨by rw [step, hfind], fun j hj hje => ?_⟩
          rcases Nat.eq_or_lt_of_le hj with rfl | hlt
          · exact hget
          · exact hno j hlt hje
        · right
          refine ⟨m, by rw [step, hfind], by omega, hme, hm, fun j hj hjm => ?_⟩
          rcases Nat.eq_or_lt_of_le hj with rfl | hlt
          · exact hget
          · exact hno j hlt hjm
    · left
      refine ⟨?_, fun j hj hje => by omega⟩
      rw [pyFindGo_succ_eq, if_neg (fun hc => hke (hlen.mp hc))]

/-- Python index adjustment of a nonnegative index clamps to the length. -/
lemma pyAdjIdx_natCast (p n : Nat) : pyAdjIdx (p : Int) n = min p n := by
  unfold pyAdjIdx
  rw [if_neg (by omega)]
  rw [← Nat.cast_min, Int.toNat_natCast]

/-- Python index adjustment of `-1` is the last position. -/
lemma pyAdjIdx_neg_one (n : Nat) : pyAdjIdx (-1) n = n - 1 := by
  unfold pyAdjIdx
  rw [if_pos (by omega)]
  omega

/-- Unfolding equation for one step of the unconditional escape loop. -/
lemma escUncondGo_succ_eq (c : Char) (u : Int) (fuel : Nat) (text : Str) (pos : Nat) :
    escUncondGo c u (fuel + 1) text pos =
      (if pyFind text [c] pos (some u) < 0 then .ok text
       else escUncondGo c u fuel
         (text.take (pyFind text [c] pos (some u)).toNat ++
           '\\' :: c :: text.drop ((pyFind text [c] pos (some u)).toNat + 1))
         ((pyFind text [c] pos (some u)).toNat + 2)) := rfl

/-- The slice between the search start and the first hit holds no
occurrence of the searched character. -/
lemma seg_no_occ (l : Str) (c : Char) (pos m : Nat)
    (hno : ∀ j, pos ≤ j → j < m → l[j]? ≠ some c) :
    ∀ x ∈ (l.drop pos).take (m - pos), x ≠ c := by
  intro x hx
  obtain ⟨i, hi, hix⟩ := List.mem_iff_getElem.mp hx
  have hilt : i < m - pos := lt_of_lt_of_le hi (by simp [List.length_take])
  have hidx : i < (l.drop pos).length := by
    have := List.length_take (m - pos) (l.drop pos)
    omega
  rw [List.getElem_take] at hix
  have hpd : pos + i < l.length := by
    have := List.length_drop pos l
    omega
  rw [List.getElem_drop] at hix
  intro hxc
  exact hno (pos + i) (by omega) (by omega)
    (by rw [List.getElem?_eq_getElem hpd, hix, hxc])

set_option maxHeartbeats 1000000 in
/-- The source's unconditional escape loop, run with the default bound
`-1` and enough fuel, computes exactly the spec-side pass on the suffix
from the current position. -/
lemma escUncondGo_spec (c : Char) :
    ∀ (fuel : Nat) (l : Str) (pos : Nat),
      l.length + 1 ≤ fuel + pos → 1 ≤ fuel →
      escUncondGo c (-1) fuel l pos = .ok (l.take pos ++ escUncondSpec c (l.drop pos)) := by
  intro fuel
  induction fuel with
  | zero => intro l pos h1 h2; omega
  | succ f ih =>
    intro l pos h1 h2
    rw [escUncondGo_succ_eq]
    have hfind : pyFind l [c] pos (some (-1)) =
        pyFindGo l [c] (l.length - 1) (min pos l.length) ((l.length - 1) + 1 - min pos l.length) := by
      unfold pyFind
      dsimp only
      rw [pyAdjIdx_natCast, pyAdjIdx_neg_one]
    rcases pyFindGo_single l c (l.length - 1) ((l.length - 1) + 1 - min pos l.length)
        (min pos l.length) (by omega) with ⟨hf, hno⟩ | ⟨m, hf, hsm, hme, hm, hno⟩
    · rw [hfind, hf, if_pos (by omega)]
      have hspec : escUncondSpec c (l.drop pos) = l.drop pos := by
        apply escUncondSpec_no_occ
        intro x hx
        obtain ⟨i, hi, hix⟩ := List.mem_iff_getElem.mp hx
        have hlen1 : (l.drop pos).length = l.length - pos := List.length_drop pos l
        have hlen2 : ((l.drop pos).dropLast).length = (l.drop pos).length - 1 :=
          List.length_dropLast _
        have hidx : i < (l.drop pos).length := by omega
        rw [List.getElem_dropLast, List.getElem_drop] at hix
        intro hxc
        have hpl : pos + i < l.length := by omega
        exact hno (pos + i) (by omega) (by omega)
          (by rw [List.getElem?_eq_getElem hpl, hix, hxc])
      rw [hspec, List.take_append_drop]
    · have hposn : pos ≤ l.length := by
        by_contra hgt
        have : min pos l.length = l.length := by omega
        omega
      have hsm' : pos ≤ m := by omega
      have hmlen : m + 2 ≤ l.length := by omega
      rw [hfind, hf, if_neg (by omega)]
      have htn : ((m : Int)).toNat = m := Int.toNat_natCast m
      rw [htn]
      have hlentake : (l.take m).length = m := by
        rw [List.length_take]; omega
      have hlen' : (l.take m ++ '\\' :: c :: l.drop (m + 1)).length = l.length + 1 := by
        simp [List.length_append, hlentake, List.length_drop]
        omega
      rw [ih _ (m + 2) (by omega) (by omega)]
      congr 1
      have htake2 : (l.take m ++ '\\' :: c :: l.drop (m + 1)).take (m + 2) =
          l.take m ++ ['\\', c] := by
        rw [show m + 2 = (l.take m).length + 2 by rw [hlentake]]
        rw [List.take_append]
        rfl
      have hdrop2 : (l.take m ++ '\\' :: c :: l.drop (m + 1)).drop (m + 2) = l.drop (m + 1) := by
        rw [show m + 2 = (l.take m).length + 2 by rw [hlentake]]
        rw [List.drop_append]
        rfl
      rw [htake2, hdrop2]
      have hmval : l[m] = c := by
        obtain ⟨hh, hv⟩ := List.getElem?_eq_some.mp hm
        exact hv
      have hdropm : l.drop m = c :: l.drop (m + 1) := by
        rw [List.drop_eq_getElem_cons (by omega : m < l.length), hmval]
      have htakem : l.take m = l.take pos ++ (l.drop pos).take (m - pos) := by
        rw [show m = pos + (m - pos) by omega, List.take_add]
        rw [show pos + (m - pos) - pos = m - pos by omega]
      have hsplit : l.drop pos = (l.drop pos).take (m - pos) ++ (c :: l.drop (m + 1)) := by
        rw [← hdropm]
        rw [show l.drop m = (l.drop pos).drop (m - pos) by
          rw [List.drop_drop]; congr 1; omega]
        exact (List.take_append_drop _ _).symm
      have hrest : l.drop (m + 1) ≠ [] := by
        intro hnil
        have := List.length_drop (m + 1) l
        rw [hnil] at this
        simp at this
        omega
      rw [hsplit, escUncondSpec_append c _ _ (seg_no_occ l c pos m
        (fun j hj hjm => hno j (by omega) hjm)) (by simp),
        escUncondSpec_cons_hit c _ hrest, htakem]
      simp

/-- Unfolding equation for one step of the underscore escape loop. -/
lemma escUnderscoreGo_succ_eq (u : Int) (fuel : Nat) (text : Str) (pos : Nat) :
    escUnderscoreGo u (fuel + 1) text pos =
      (if pyFind text ['_'] pos (some u) < 0 then .ok text
       else match text.get? ((pyFind text ['_'] pos (some u)).toNat + 1) with
         | none => .error .indexError
         | some d =>
           if ¬ d.isAlphanum then
             escUnderscoreGo u fuel
               (text.take (pyFind text ['_'] pos (some u)).toNat ++
                 '\\' :: '_' :: text.drop ((pyFind text ['_'] pos (some u)).toNat + 1))
               ((pyFind text ['_'] pos (some u)).toNat + 2)
           else escUnderscoreGo u fuel text ((pyFind text ['_'] pos (some u)).toNat + 1)) := rfl

set_option maxHeartbeats 1000000 in
/-- The source's underscore escape loop, run with the default bound `-1`
and enough fuel, computes exactly the spec-side underscore pass on the
suffix from the current position. -/
lemma escUnderscoreGo_spec :
    ∀ (fuel : Nat) (l : Str) (pos : Nat),
      l.length + 1 ≤ fuel + pos → 1 ≤ fuel →
      escUnderscoreGo (-1) fuel l pos = .ok (l.take pos ++ escUnderscoreSpec (l.drop pos)) := by
  intro fuel
  induction fuel with
  | zero => intro l pos h1 h2; omega
  | succ f ih =>
    intro l pos h1 h2
    rw [escUnderscoreGo_succ_eq]
    have hfind : pyFind l ['_'] pos (some (-1)) =
        pyFindGo l ['_'] (l.length - 1) (min pos l.length)
          ((l.length - 1) + 1 - min pos l.length) := by
      unfold pyFind
      dsimp only
      rw [pyAdjIdx_natCast, pyAdjIdx_neg_one]
    rcases pyFindGo_single l '_' (l.length - 1) ((l.length - 1) + 1 - min pos l.length)
        (min pos l.length) (by omega) with ⟨hf, hno⟩ | ⟨m, hf, hsm, hme, hm, hno⟩
    · rw [hfind, hf, if_pos (by omega)]
      have hspec : escUnderscoreSpec (l.drop pos) = l.drop pos := by
        apply escUnderscoreSpec_no_occ
        intro x hx
        obtain ⟨i, hi, hix⟩ := List.mem_iff_getElem.mp hx
        have hlen1 : (l.drop pos).length = l.length - pos := List.length_drop pos l
        have hlen2 : ((l.drop pos).dropLast).length = (l.drop pos).length - 1 :=
          List.length_dropLast _
        have hidx : i < (l.drop pos).length := by omega
        rw [List.getElem_dropLast, List.getElem_drop] at hix
        intro hxc
        have hpl : pos + i < l.length := by omega
        exact hno (pos + i) (by omega) (by omega)
          (by rw [List.getElem?_eq_getElem hpl, hix, hxc])
      rw [hspec, List.take_append_drop]
    · have hposn : pos ≤ l.length := by
        by_contra hgt
        have : min pos l.length = l.length := by omega
        omega
      have hsm' : pos ≤ m := by omega
      have hmlen : m + 2 ≤ l.length := by omega
      rw [hfind, hf, if_neg (by omega)]
      have htn : ((m : Int)).toNat = m := Int.toNat_natCast m
      rw [htn]
      have hm1lt : m + 1 < l.length := by omega
      have hget : l.get? (m + 1) = some l[m + 1] := by
        rw [List.get?_eq_getElem?, List.getElem?_eq_getElem hm1lt]
      rw [hget]
      dsimp only
      have hmval : l[m] = '_' := by
        obtain ⟨hh, hv⟩ := List.getElem?_eq_some.mp hm
        exact hv
      have hdropm : l.drop m = '_' :: l.drop (m + 1) := by
        rw [List.drop_eq_getElem_cons (by omega : m < l.length), hmval]
      have hdropm1 : l.drop (m + 1) = l[m + 1] :: l.drop (m + 2) := by
        rw [List.drop_eq_getElem_cons hm1lt]
      have htakem : l.take m = l.take pos ++ (l.drop pos).take (m - pos) := by
        rw [show m = pos + (m - pos) by omega, List.take_add]
        rw [show pos + (m - pos) - pos = m - pos by omega]
      have hsplit : l.drop pos = (l.drop pos).take (m - pos) ++ ('_' :: l.drop (m + 1)) := by
        rw [← hdropm]
        rw [show l.drop m = (l.drop pos).drop (m - pos) by
          rw [List.drop_drop]; congr 1; omega]
        exact (List.take_append_drop _ _).symm
      have hsegno : ∀ x ∈ (l.drop pos).take (m - pos), x ≠ '_' :=
        seg_no_occ l '_' pos m (fun j hj hjm => hno j (by omega) hjm)
      by_cases hal : (l[m + 1]).isAlphanum
      · rw [if_neg (by simp [hal])]
        rw [ih l (m + 1) (by omega) (by omega)]
        congr 1
        have htakem1 : l.take (m + 1) = l.take m ++ ['_'] := by
          rw [List.take_succ, List.getElem?_eq_getElem (by omega : m < l.length), hmval]
          rfl
        have hwin : escUnderscoreSpec ('_' :: l.drop (m + 1)) =
            '_' :: escUnderscoreSpec (l.drop (m + 1)) := by
          rw [hdropm1]
          simp [escUnderscoreSpec, hal]
        rw [hsplit, escUnderscoreSpec_append _ _ hsegno, hwin, htakem1, htakem]
        simp
      · rw [if_pos (by simp [hal])]
        have hlentake : (l.take m).length = m := by
          rw [List.length_take]; omega
        have hlen' : (l.take m ++ '\\' :: '_' :: l.drop (m + 1)).length = l.length + 1 := by
          simp [List.length_append, hlentake, List.length_drop]
          omega
        rw [ih _ (m + 2) (by omega) (by omega)]
        congr 1
        have htake2 : (l.take m ++ '\\' :: '_' :: l.drop (m + 1)).take (m + 2) =
            l.take m ++ ['\\', '_'] := by
          rw [show m + 2 = (l.take m).length + 2 by rw [hlentake]]
          rw [List.take_append]
          rfl
        have hdrop2 : (l.take m ++ '\\' :: '_' :: l.drop (m + 1)).drop (m + 2) =
            l.drop (m + 1) := by
          rw [show m + 2 = (l.take m).length + 2 by rw [hlentake]]
          rw [List.drop_append]
          rfl
        rw [htake2, hdrop2]
        have hwin : escUnderscoreSpec ('_' :: l.drop (m + 1)) =
            '\\' :: '_' :: escUnderscoreSpec (l.drop (m + 1)) := by
          rw [hdropm1]
          simp [escUnderscoreSpec, hal]
        rw [hsplit, escUnderscoreSpec_append _ _ hsegno, hwin, htakem]
        simp

/-- Bind on a successful `Except` computation applies the continuation. -/
lemma except_bind_ok {α β : Type} (x : α) (f : α → Except PyErr β) :
    (Except.ok x >>= f : Except PyErr β) = f x := rfl

/-- C8 (amended): with the source's default upper bound `-1`, `escape_rst`
never raises and equals the spec-side per-character rules restricted to all
characters strictly before the final one: within that window backslashes
and emphasis markers are escaped unconditionally and an underscore is
escaped exactly when the next character is not alphanumeric, but — because
Python's `find(..., 0, -1)` excludes the last character — an occurrence in
the final position is never escaped, so the claim's "every ... occurring
before the bound" reading of the default bound as the whole text is false. -/
theorem c8_escape_rst_amended (l : Str) :
    escape_rst l (-1) = .ok (escape_rst_spec l) := by
  unfold escape_rst
  rw [escUncondGo_spec '\\' (l.length + 2) l 0 (by omega) (by omega)]
  simp only [List.take_zero, List.drop_zero, List.nil_append, except_bind_ok]
  rw [escUncondGo_spec '*' ((escUncondSpec '\\' l).length + 2) (escUncondSpec '\\' l) 0
    (by omega) (by omega)]
  simp only [List.take_zero, List.drop_zero, List.nil_append, except_bind_ok]
  rw [escUnderscoreGo_spec ((escUncondSpec '*' (escUncondSpec '\\' l)).length + 2)
    (escUncondSpec '*' (escUncondSpec '\\' l)) 0 (by omega) (by omega)]
  simp [escape_rst_spec]

/-- C8 counterexample: under the default bound a final emphasis marker is
left unescaped — a lone star passes through unchanged, and of two stars
only the first is escaped. -/
theorem c8_counterexample :
    escape_rst (S "*") (-1) = .ok (S "*") ∧
    escape_rst (S "**") (-1) = .ok (S "\\**") := by decide
